import Mathlib

/-!
# Verification of the datagen core generation engine

Shallow embedding of the deterministic core of the `datagen` repository
(seed derivation, DAG validation, fanout sampling, effect scaling,
modifier pipeline, distribution clamping, and the behavioral simulators)
together with proofs of the specified properties.

Python floats are modelled as exact rationals or reals; numpy random
streams are modelled as explicit deterministic draw streams passed in as
arguments (the properties proved hold for every stream).
-/

set_option maxHeartbeats 1000000

/-! ## Seed derivation (`src/datagen/core/seed.py`)

`derive_seed(*parts)` joins `str(p)` for each part with `"|"`, hashes the
UTF-8 bytes with SHA-256, takes the first 4 bytes big-endian and reduces
mod 2^32.  SHA-256 is embedded below following FIPS 180-4, operating on
byte lists (`Nat` values < 256) with 32-bit words as `Nat` values reduced
mod 2^32. -/

namespace Seed

/-- Truncate to a 32-bit word. -/
def w32 (n : Nat) : Nat := n % 4294967296

/-- Right rotation of a 32-bit word. -/
def rotr32 (x k : Nat) : Nat := w32 ((x >>> k) ||| (x <<< (32 - k)))

/-- SHA-256 round constants (FIPS 180-4 §4.2.2). -/
def shaK : List Nat :=
  [1116352408, 1899447441, 3049323471, 3921009573, 961987163, 1508970993,
   2453635748, 2870763221, 3624381080, 310598401, 607225278, 1426881987,
   1925078388, 2162078206, 2614888103, 3248222580, 3835390401, 4022224774,
   264347078, 604807628, 770255983, 1249150122, 1555081692, 1996064986,
   2554220882, 2821834349, 2952996808, 3210313671, 3336571891, 3584528711,
   113926993, 338241895, 666307205, 773529912, 1294757372, 1396182291,
   1695183700, 1986661051, 2177026350, 2456956037, 2730485921, 2820302411,
   3259730800, 3345764771, 3516065817, 3600352804, 4094571909, 275423344,
   430227734, 506948616, 659060556, 883997877, 958139571, 1322822218,
   1537002063, 1747873779, 1955562222, 2024104815, 2227730452, 2361852424,
   2428436474, 2756734187, 3204031479, 3329325298]

/-- SHA-256 initial hash value (FIPS 180-4 §5.3.3). -/
def shaH0 : List Nat :=
  [1779033703, 3144134277, 1013904242, 2773480762,
   1359893119, 2600822924, 528734635, 1541459225]

/-- Big-endian byte serialization of `n` on `k` bytes. -/
def toBytesBE (k n : Nat) : List Nat :=
  (List.range k).map (fun i => (n >>> (8 * (k - 1 - i))) % 256)

/-- Big-endian byte deserialization (`int.from_bytes(_, "big")`). -/
def fromBytesBE (bs : List Nat) : Nat := bs.foldl (fun a b => a * 256 + b) 0

/-- SHA-256 message padding: append `0x80`, zero bytes to 56 mod 64, then
the bit length on 8 bytes. -/
def padMessage (msg : List Nat) : List Nat :=
  let r := (msg.length + 1) % 64
  let zeros := (56 + 64 - r) % 64
  msg ++ [0x80] ++ List.replicate zeros 0 ++ toBytesBE 8 (8 * msg.length)

/-- Pack bytes into big-endian 32-bit words. -/
def bytesToWords : List Nat → List Nat
  | a :: b :: c :: d :: rest => (((a * 256 + b) * 256 + c) * 256 + d) :: bytesToWords rest
  | _ => []

def smallSigma0 (x : Nat) : Nat := (rotr32 x 7) ^^^ (rotr32 x 18) ^^^ (x >>> 3)
def smallSigma1 (x : Nat) : Nat := (rotr32 x 17) ^^^ (rotr32 x 19) ^^^ (x >>> 10)
def bigSigma0 (x : Nat) : Nat := (rotr32 x 2) ^^^ (rotr32 x 13) ^^^ (rotr32 x 22)
def bigSigma1 (x : Nat) : Nat := (rotr32 x 6) ^^^ (rotr32 x 11) ^^^ (rotr32 x 25)
def chWord (x y z : Nat) : Nat := (x &&& y) ^^^ ((x ^^^ 0xffffffff) &&& z)
def majWord (x y z : Nat) : Nat := (x &&& y) ^^^ (x &&& z) ^^^ (y &&& z)

/-- Extend the 16 message-schedule words to 64 (FIPS 180-4 §6.2.2 step 1). -/
def extendLoop (w : List Nat) (i fuel : Nat) : List Nat :=
  match fuel with
  | 0 => w
  | fuel + 1 =>
    let wi := w32 ((w.getD (i - 16) 0) + smallSigma0 (w.getD (i - 15) 0) +
                   (w.getD (i - 7) 0) + smallSigma1 (w.getD (i - 2) 0))
    extendLoop (w ++ [wi]) (i + 1) fuel

def extendWords (w : List Nat) : List Nat := extendLoop w 16 48

/-- The eight working variables of the compression function. -/
structure Hash8 where
  a : Nat
  b : Nat
  c : Nat
  d : Nat
  e : Nat
  f : Nat
  g : Nat
  h : Nat

/-- The 64 compression rounds (FIPS 180-4 §6.2.2 step 3). -/
def compressRounds (kw : List (Nat × Nat)) (st : Hash8) : Hash8 :=
  match kw with
  | [] => st
  | (k, w) :: rest =>
    let t1 := w32 (st.h + bigSigma1 st.e + chWord st.e st.f st.g + k + w)
    let t2 := w32 (bigSigma0 st.a + majWord st.a st.b st.c)
    compressRounds rest
      ⟨w32 (t1 + t2), st.a, st.b, st.c, w32 (st.d + t1), st.e, st.f, st.g⟩

/-- Fold the compression function over the 64-byte chunks of the padded
message.  `fuel` bounds the recursion; it is instantiated with the byte
length, which always suffices since every step consumes 64 bytes. -/
def processChunks (st : Hash8) (bytes : List Nat) (fuel : Nat) : Hash8 :=
  match fuel with
  | 0 => st
  | fuel + 1 =>
    match bytes with
    | [] => st
    | _ =>
      let ws := extendWords (bytesToWords (bytes.take 64))
      let r := compressRounds (shaK.zip ws) st
      let st2 : Hash8 :=
        ⟨w32 (st.a + r.a), w32 (st.b + r.b), w32 (st.c + r.c), w32 (st.d + r.d),
         w32 (st.e + r.e), w32 (st.f + r.f), w32 (st.g + r.g), w32 (st.h + r.h)⟩
      processChunks st2 (bytes.drop 64) fuel

/-- SHA-256 digest of a byte list, as a 32-byte list. -/
def sha256 (msg : List Nat) : List Nat :=
  let padded := padMessage msg
  let st0 : Hash8 :=
    ⟨shaH0.getD 0 0, shaH0.getD 1 0, shaH0.getD 2 0, shaH0.getD 3 0,
     shaH0.getD 4 0, shaH0.getD 5 0, shaH0.getD 6 0, shaH0.getD 7 0⟩
  let st := processChunks st0 padded padded.length
  (toBytesBE 4 st.a) ++ (toBytesBE 4 st.b) ++ (toBytesBE 4 st.c) ++ (toBytesBE 4 st.d) ++
  (toBytesBE 4 st.e) ++ (toBytesBE 4 st.f) ++ (toBytesBE 4 st.g) ++ (toBytesBE 4 st.h)

/-- A scope part as accepted by `derive_seed` (`Union[str, int, float]`;
float parts, whose Python `str` rendering is a floating-point artifact,
are not modelled — all seed scopes built by `SeedManager` use strings and
ints). -/
inductive SeedPart where
  | str (s : String)
  | int (n : Int)
deriving DecidableEq

/-- Python `str(p)` for a scope part. -/
def pyStr : SeedPart → String
  | .str s => s
  | .int n => toString n

/-- `"|".join(str(p) for p in parts)`. -/
def joinParts (parts : List SeedPart) : String :=
  String.intercalate "|" (parts.map pyStr)

/-- Hash of the combined string: SHA-256, first 4 bytes big-endian,
reduced mod 2^32. -/
def seedOfString (combined : String) : Nat :=
  let hashBytes := sha256 (combined.toUTF8.toList.map UInt8.toNat)
  let seed := fromBytesBE (hashBytes.take 4)
  seed % 4294967296

/-- `derive_seed(*parts)` from `core/seed.py`. -/
def derive_seed (parts : List SeedPart) : Nat :=
  seedOfString (joinParts parts)

end Seed

/-- C1 (amended): `derive_seed` is a pure deterministic function into
[0, 2^32): it depends only on the `"|"`-joined string forms of the scope
parts, so any two tuples with the same joined form (in particular equal
tuples) yield equal seeds. -/
theorem derive_seed_deterministic_range (ps qs : List Seed.SeedPart)
    (h : Seed.joinParts ps = Seed.joinParts qs) :
    Seed.derive_seed ps = Seed.derive_seed qs ∧ Seed.derive_seed ps < 2 ^ 32 := by
  constructor
  · exact congrArg Seed.seedOfString h
  · show _ % 4294967296 < 2 ^ 32
    exact Nat.mod_lt _ (by norm_num)

/-- Witness for C1's amended theorem at a concrete scope tuple. -/
theorem derive_seed_deterministic_range_witness :
    Seed.derive_seed [Seed.SeedPart.int 42, Seed.SeedPart.str "user"] =
      Seed.derive_seed [Seed.SeedPart.int 42, Seed.SeedPart.str "user"] ∧
    Seed.derive_seed [Seed.SeedPart.int 42, Seed.SeedPart.str "user"] < 2 ^ 32 :=
  derive_seed_deterministic_range _ _ rfl

/-- C1 counterexample: the tuples `(42, "user")` and `("42", "user")`
differ in the master-seed part but yield the same seed, because
`str(42) = "42"`; so differing tuples do not always yield different
seeds. -/
theorem derive_seed_collision :
    Seed.derive_seed [Seed.SeedPart.int 42, Seed.SeedPart.str "user"] =
      Seed.derive_seed [Seed.SeedPart.str "42", Seed.SeedPart.str "user"] ∧
    Seed.SeedPart.int 42 ≠ Seed.SeedPart.str "42" := by
  refine ⟨congrArg Seed.seedOfString ?_, by decide⟩
  decide

/-! ## Explicit DAG validation (`src/datagen/core/dag.py`, `schema.py`)

When an explicit `dag` (list of levels of node ids) is supplied, the
`Dataset` model validator first checks that node ids are unique and that
the set of ids in the dag equals the set of node ids; then
`DAGBuilder._validate_explicit_dag` walks the levels in order keeping a
`seen` set: a repeated id is an error, and each declared parent of a node
must already be in `seen` — note the node itself is added to `seen`
*before* its parents are checked. -/

namespace Dag

structure DagNode where
  id : String
  parents : List String
deriving DecidableEq

/-- `{n.id: n for n in dataset.nodes}`: later entries overwrite earlier
ones, so lookup finds the last node with the given id. -/
def nodesById (nodes : List DagNode) (nid : String) : Option DagNode :=
  nodes.reverse.find? (fun n => n.id == nid)

/-- The id-by-id walk of `_validate_explicit_dag` (the two nested loops,
flattened over one level), threading the `seen` set. -/
def validateIds (f : String → Option DagNode) (seen : List String) :
    List String → Except String (List String)
  | [] => .ok seen
  | nid :: rest =>
    if nid ∈ seen then .error ("Node " ++ nid ++ " appears multiple times in DAG")
    else
      match f nid with
      | none => .error ("KeyError: " ++ nid)
      | some nd =>
        if nd.parents.all (fun p => decide (p ∈ seen ++ [nid])) then
          validateIds f (seen ++ [nid]) rest
        else .error ("Node " ++ nid ++ " references parent which appears later in DAG")

/-- The outer loop of `_validate_explicit_dag` over the levels. -/
def validateLevels (f : String → Option DagNode) (seen : List String) :
    List (List String) → Except String (List String)
  | [] => .ok seen
  | lvl :: rest => do
    let s ← validateIds f seen lvl
    validateLevels f s rest

/-- The `Dataset.validate_dataset` checks relevant to an explicit dag:
unique node ids, and dag id set equal to node id set. -/
def datasetDagCheck (nodes : List DagNode) (dag : List (List String)) : Except String Unit :=
  if (nodes.map (·.id)).Nodup then
    if dag.flatten.all (fun x => decide (x ∈ nodes.map (·.id))) &&
       (nodes.map (·.id)).all (fun x => decide (x ∈ dag.flatten)) then .ok ()
    else .error "DAG id set and node id set differ"
  else .error "Duplicate node ids found"

/-- Full validation of a supplied explicit dag: the dataset-level check
followed by `_validate_explicit_dag`. -/
def validateExplicitDag (nodes : List DagNode) (dag : List (List String)) :
    Except String Unit := do
  datasetDagCheck nodes dag
  _ ← validateLevels (nodesById nodes) [] dag
  pure ()

/-- Index of the first level containing `x`. -/
def levelOf (dag : List (List String)) (x : String) : Nat :=
  dag.findIdx (fun lvl => decide (x ∈ lvl))

/-- The claim's acceptance condition: every node id exactly once across
all levels, only known node ids occur, and every declared parent of a
node lies in a strictly earlier level than the node. -/
def claimDagOk (nodes : List DagNode) (dag : List (List String)) : Prop :=
  (∀ n ∈ nodes, dag.flatten.count n.id = 1) ∧
  (∀ x ∈ dag.flatten, ∃ n ∈ nodes, n.id = x) ∧
  (∀ n ∈ nodes, ∀ p ∈ n.parents, p ∈ dag.flatten ∧ levelOf dag p < levelOf dag n.id)

instance (nodes : List DagNode) (dag : List (List String)) :
    Decidable (claimDagOk nodes dag) := by
  unfold claimDagOk; infer_instance

/-- The acceptance condition actually enforced by the code: every node id
exactly once, only known ids, and every declared parent of a node occurs
*no later than the node itself* in the flattened level-by-level order
(so a parent earlier in the same level, or the node itself, is accepted). -/
def amendedDagOk (nodes : List DagNode) (dag : List (List String)) : Prop :=
  (∀ n ∈ nodes, dag.flatten.count n.id = 1) ∧
  (∀ x ∈ dag.flatten, ∃ n ∈ nodes, n.id = x) ∧
  (∀ pre x post, dag.flatten = pre ++ x :: post →
     ∀ nd ∈ nodes, nd.id = x → ∀ p ∈ nd.parents, p ∈ pre ++ [x])

end Dag

namespace Dag

theorem validateIds_cons_mem (f : String → Option DagNode) (seen : List String)
    (y : String) (rest : List String) (h : y ∈ seen) :
    validateIds f seen (y :: rest) =
      .error ("Node " ++ y ++ " appears multiple times in DAG") := by
  rw [validateIds, if_pos h]

theorem validateIds_cons_none (f : String → Option DagNode) (seen : List String)
    (y : String) (rest : List String) (h1 : y ∉ seen) (h2 : f y = none) :
    validateIds f seen (y :: rest) = .error ("KeyError: " ++ y) := by
  rw [validateIds, if_neg h1, h2]

theorem validateIds_cons_some_ok (f : String → Option DagNode) (seen : List String)
    (y : String) (rest : List String) (nd : DagNode) (h1 : y ∉ seen) (h2 : f y = some nd)
    (h3 : ∀ p ∈ nd.parents, p ∈ seen ++ [y]) :
    validateIds f seen (y :: rest) = validateIds f (seen ++ [y]) rest := by
  rw [validateIds, if_neg h1]
  simp only [h2]
  rw [if_pos (List.all_eq_true.mpr fun p hp => decide_eq_true (h3 p hp))]

theorem validateIds_cons_some_err (f : String → Option DagNode) (seen : List String)
    (y : String) (rest : List String) (nd : DagNode) (h1 : y ∉ seen) (h2 : f y = some nd)
    (h3 : ¬ ∀ p ∈ nd.parents, p ∈ seen ++ [y]) :
    validateIds f seen (y :: rest) =
      .error ("Node " ++ y ++ " references parent which appears later in DAG") := by
  rw [validateIds, if_neg h1]
  simp only [h2]
  rw [if_neg]
  intro hall
  exact h3 fun p hp => of_decide_eq_true (List.all_eq_true.mp hall p hp)

theorem validateIds_append (f : String → Option DagNode) (seen l1 l2 : List String) :
    validateIds f seen (l1 ++ l2) =
      (validateIds f seen l1).bind (fun s => validateIds f s l2) := by
  induction l1 generalizing seen with
  | nil => rfl
  | cons x rest ih =>
    rw [List.cons_append]
    by_cases hmem : x ∈ seen
    · rw [validateIds_cons_mem f seen x (rest ++ l2) hmem,
          validateIds_cons_mem f seen x rest hmem]
      rfl
    · cases hfx : f x with
      | none =>
        rw [validateIds_cons_none f seen x (rest ++ l2) hmem hfx,
            validateIds_cons_none f seen x rest hmem hfx]
        rfl
      | some nd =>
        by_cases hall : ∀ p ∈ nd.parents, p ∈ seen ++ [x]
        · rw [validateIds_cons_some_ok f seen x (rest ++ l2) nd hmem hfx hall,
              validateIds_cons_some_ok f seen x rest nd hmem hfx hall]
          exact ih _
        · rw [validateIds_cons_some_err f seen x (rest ++ l2) nd hmem hfx hall,
              validateIds_cons_some_err f seen x rest nd hmem hfx hall]
          rfl

theorem validateLevels_eq (f : String → Option DagNode) (seen : List String)
    (dag : List (List String)) :
    validateLevels f seen dag = validateIds f seen dag.flatten := by
  induction dag generalizing seen with
  | nil => rfl
  | cons lvl rest ih =>
    show (validateIds f seen lvl).bind _ = _
    rw [List.flatten_cons, validateIds_append]
    cases h : validateIds f seen lvl with
    | error e => rfl
    | ok s => simp only [Except.bind]; exact ih s

theorem validateIds_cons_ok (f : String → Option DagNode) (seen : List String)
    (y : String) (rest : List String) (s : List String) :
    validateIds f seen (y :: rest) = .ok s ↔
      y ∉ seen ∧ ∃ nd, f y = some nd ∧ (∀ p ∈ nd.parents, p ∈ seen ++ [y]) ∧
        validateIds f (seen ++ [y]) rest = .ok s := by
  by_cases hmem : y ∈ seen
  · rw [validateIds_cons_mem f seen y rest hmem]
    constructor
    · intro h; cases h
    · rintro ⟨hy, -⟩; exact absurd hmem hy
  · cases hfx : f y with
    | none =>
      rw [validateIds_cons_none f seen y rest hmem hfx]
      constructor
      · intro h; cases h
      · rintro ⟨-, nd, hnd, -⟩; cases hnd
    | some nd =>
      by_cases hall : ∀ p ∈ nd.parents, p ∈ seen ++ [y]
      · rw [validateIds_cons_some_ok f seen y rest nd hmem hfx hall]
        constructor
        · intro h; exact ⟨hmem, nd, rfl, hall, h⟩
        · rintro ⟨-, nd', hnd', -, hrest⟩; exact hrest
      · rw [validateIds_cons_some_err f seen y rest nd hmem hfx hall]
        constructor
        · intro h; cases h
        · rintro ⟨-, nd', hnd', hpar, -⟩
          cases hnd'
          exact absurd hpar hall

theorem validateIds_ok_iff (f : String → Option DagNode) (seen ids : List String) :
    (∃ s, validateIds f seen ids = .ok s) ↔
      ∀ pre x post, ids = pre ++ x :: post →
        x ∉ seen ∧ x ∉ pre ∧
        ∃ nd, f x = some nd ∧ ∀ p ∈ nd.parents, p ∈ seen ++ pre ++ [x] := by
  induction ids generalizing seen with
  | nil =>
    constructor
    · intro _ pre x post h; exact absurd h (by simp)
    · intro _; exact ⟨seen, rfl⟩
  | cons y rest ih =>
    constructor
    · rintro ⟨s, hs⟩ pre x post hsplit
      rw [validateIds_cons_ok] at hs
      obtain ⟨hy, nd, hnd, hpar, hrest⟩ := hs
      cases pre with
      | nil =>
        simp only [List.nil_append] at hsplit
        cases hsplit
        exact ⟨hy, by simp, nd, hnd, by simpa using hpar⟩
      | cons z pre' =>
        simp only [List.cons_append, List.cons.injEq] at hsplit
        obtain ⟨rfl, hsplit'⟩ := hsplit
        have := (ih (seen ++ [y])).mp ⟨s, hrest⟩ pre' x post hsplit'
        obtain ⟨hx1, hx2, nd', hnd', hpar'⟩ := this
        refine ⟨?_, ?_, nd', hnd', ?_⟩
        · intro hc; exact hx1 (by simp [hc])
        · intro hc
          rcases List.mem_cons.mp hc with rfl | hc'
          · exact hx1 (by simp)
          · exact hx2 hc'
        · intro p hp
          have := hpar' p hp
          simp only [List.append_assoc, List.mem_append, List.mem_cons,
            List.mem_singleton] at this ⊢
          tauto
    · intro h
      have hhead := h [] y rest (by simp)
      obtain ⟨hy, -, nd, hnd, hpar⟩ := hhead
      have htail : ∀ pre x post, rest = pre ++ x :: post →
          x ∉ seen ++ [y] ∧ x ∉ pre ∧
          ∃ nd', f x = some nd' ∧ ∀ p ∈ nd'.parents, p ∈ (seen ++ [y]) ++ pre ++ [x] := by
        intro pre x post hsplit
        have := h (y :: pre) x post (by simp [hsplit])
        obtain ⟨hx1, hx2, nd', hnd', hpar'⟩ := this
        refine ⟨?_, ?_, nd', hnd', ?_⟩
        · intro hc
          rcases List.mem_append.mp hc with hc' | hc'
          · exact hx1 hc'
          · have hxy : x = y := by simpa using hc'
            exact hx2 (by simp [hxy])
        · intro hc; exact hx2 (List.mem_cons_of_mem _ hc)
        · intro p hp
          have := hpar' p hp
          simp only [List.append_assoc, List.mem_append, List.mem_cons,
            List.mem_singleton] at this ⊢
          tauto
      obtain ⟨s, hs⟩ := (ih (seen ++ [y])).mpr htail
      refine ⟨s, ?_⟩
      rw [validateIds_cons_ok]
      exact ⟨hy, nd, hnd, by simpa using hpar, hs⟩

end Dag

namespace Dag

theorem nodesById_eq_some (nodes : List DagNode) (nid : String) (nd : DagNode)
    (h : nodesById nodes nid = some nd) : nd ∈ nodes ∧ nd.id = nid := by
  unfold nodesById at h
  have h1 := List.mem_of_find?_eq_some h
  have h2 := List.find?_some h
  exact ⟨List.mem_reverse.mp h1, by simpa using h2⟩

theorem nodesById_isSome (nodes : List DagNode) (nid : String)
    (h : ∃ n ∈ nodes, n.id = nid) : ∃ nd, nodesById nodes nid = some nd := by
  obtain ⟨n, hn, hid⟩ := h
  have : (nodes.reverse.find? (fun m => m.id == nid)).isSome := by
    rw [List.find?_isSome]
    exact ⟨n, List.mem_reverse.mpr hn, by simp [hid]⟩
  exact Option.isSome_iff_exists.mp this

theorem datasetDagCheck_ok_iff (nodes : List DagNode) (dag : List (List String)) :
    datasetDagCheck nodes dag = .ok () ↔
      (nodes.map (·.id)).Nodup ∧
      (∀ x ∈ dag.flatten, x ∈ nodes.map (·.id)) ∧
      (∀ x ∈ nodes.map (·.id), x ∈ dag.flatten) := by
  by_cases hnd : (nodes.map (·.id)).Nodup
  · rw [datasetDagCheck, if_pos hnd]
    by_cases hb : (dag.flatten.all (fun x => decide (x ∈ nodes.map (·.id))) &&
       (nodes.map (·.id)).all (fun x => decide (x ∈ dag.flatten))) = true
    · rw [if_pos hb]
      simp only [Bool.and_eq_true, List.all_eq_true, decide_eq_true_eq] at hb
      exact ⟨fun _ => ⟨hnd, hb.1, hb.2⟩, fun _ => rfl⟩
    · rw [if_neg hb]
      constructor
      · intro h; cases h
      · rintro ⟨-, h1, h2⟩
        refine absurd ?_ hb
        simp only [Bool.and_eq_true, List.all_eq_true, decide_eq_true_eq]
        exact ⟨h1, h2⟩
  · rw [datasetDagCheck, if_neg hnd]
    constructor
    · intro h; cases h
    · rintro ⟨h, -⟩; exact absurd h hnd

theorem validateExplicitDag_parts (nodes : List DagNode) (dag : List (List String)) :
    validateExplicitDag nodes dag = .ok () ↔
      datasetDagCheck nodes dag = .ok () ∧
      ∃ s, validateLevels (nodesById nodes) [] dag = .ok s := by
  unfold validateExplicitDag
  cases h1 : datasetDagCheck nodes dag with
  | error e =>
    simp only [bind, Except.bind]
    constructor
    · intro h; cases h
    · rintro ⟨h, -⟩; cases h
  | ok u =>
    cases u
    simp only [bind, Except.bind]
    cases h2 : validateLevels (nodesById nodes) [] dag with
    | error e =>
      constructor
      · intro h; cases h
      · rintro ⟨-, s, hs⟩; cases hs
    | ok s =>
      constructor
      · intro _; exact ⟨trivial, s, rfl⟩
      · intro _; rfl

theorem nodup_of_splits (l : List String)
    (h : ∀ pre x post, l = pre ++ x :: post → x ∉ pre) : l.Nodup := by
  induction l with
  | nil => exact List.nodup_nil
  | cons y rest ih =>
    refine List.nodup_cons.mpr ⟨?_, ih ?_⟩
    · intro hy
      obtain ⟨pre, post, hsplit⟩ := List.append_of_mem hy
      exact h (y :: pre) y post (by simp [hsplit]) (by simp)
    · intro pre x post hsplit hx
      exact h (y :: pre) x post (by simp [hsplit]) (List.mem_cons_of_mem _ hx)

theorem nodup_flatten_of_amended (nodes : List DagNode) (dag : List (List String))
    (h1 : ∀ n ∈ nodes, dag.flatten.count n.id = 1)
    (h2 : ∀ x ∈ dag.flatten, ∃ n ∈ nodes, n.id = x) : dag.flatten.Nodup := by
  rw [List.nodup_iff_count_le_one]
  intro a
  by_cases ha : a ∈ dag.flatten
  · obtain ⟨n, hn, hid⟩ := h2 a ha
    rw [← hid]
    exact le_of_eq (h1 n hn)
  · simp [List.count_eq_zero_of_not_mem ha]

end Dag

/-- C3 (amended): for a dataset with unique node ids, validation of a
supplied explicit level ordering accepts exactly when every node id
appears exactly once across all levels, the levels mention only known
node ids, and every declared parent of a node occurs *no later than the
node itself* in the flattened level-by-level order — a parent earlier in
the same level (or the node itself) is accepted, not only parents in
strictly earlier levels; otherwise it raises an error. -/
theorem validateExplicitDag_ok_iff_amended (nodes : List Dag.DagNode)
    (dag : List (List String)) (hn : (nodes.map (·.id)).Nodup) :
    Dag.validateExplicitDag nodes dag = .ok () ↔ Dag.amendedDagOk nodes dag := by
  rw [Dag.validateExplicitDag_parts, Dag.datasetDagCheck_ok_iff,
    Dag.validateLevels_eq, Dag.validateIds_ok_iff]
  constructor
  · rintro ⟨⟨-, hsub1, hsub2⟩, hsplits⟩
    have hnodup : dag.flatten.Nodup := by
      apply Dag.nodup_of_splits
      intro pre x post hsplit
      exact (hsplits pre x post hsplit).2.1
    refine ⟨?_, ?_, ?_⟩
    · intro n hmem
      exact List.count_eq_one_of_mem hnodup
        (hsub2 n.id (List.mem_map.mpr ⟨n, hmem, rfl⟩))
    · intro x hx
      obtain ⟨n, hmem, hid⟩ := List.mem_map.mp (hsub1 x hx)
      exact ⟨n, hmem, hid⟩
    · intro pre x post hsplit nd' hnd' hid p hp
      obtain ⟨-, -, nd, hfind, hpar⟩ := hsplits pre x post hsplit
      obtain ⟨hmem, hidnd⟩ := Dag.nodesById_eq_some nodes x nd hfind
      have : nd = nd' := List.inj_on_of_nodup_map hn hmem hnd' (hidnd.trans hid.symm)
      subst this
      simpa using hpar p hp
  · rintro ⟨h1, h2, h3⟩
    have hnodup : dag.flatten.Nodup := Dag.nodup_flatten_of_amended nodes dag h1 h2
    refine ⟨⟨hn, ?_, ?_⟩, ?_⟩
    · intro x hx
      obtain ⟨n, hmem, hid⟩ := h2 x hx
      exact List.mem_map.mpr ⟨n, hmem, hid⟩
    · intro x hx
      obtain ⟨n, hmem, hid⟩ := List.mem_map.mp hx
      subst hid
      have := h1 n hmem
      exact List.count_pos_iff.mp (by omega)
    · intro pre x post hsplit
      have hxmem : x ∈ dag.flatten := by rw [hsplit]; simp
      refine ⟨by simp, ?_, ?_⟩
      · rw [hsplit] at hnodup
        exact fun hc => List.disjoint_of_nodup_append hnodup hc (by simp)
      · obtain ⟨nd, hfind⟩ := Dag.nodesById_isSome nodes x (h2 x hxmem)
        obtain ⟨hmem, hid⟩ := Dag.nodesById_eq_some nodes x nd hfind
        refine ⟨nd, hfind, ?_⟩
        intro p hp
        have := h3 pre x post hsplit nd hmem hid p hp
        simpa using this

/-- Witness for C3's amended theorem: the two-node dataset
`a`, `b (parent a)` with explicit dag `[[a], [b]]` has unique ids, and the
characterization applies to it. -/
theorem validateExplicitDag_ok_iff_amended_witness :
    (([⟨"a", []⟩, ⟨"b", ["a"]⟩] : List Dag.DagNode).map (·.id)).Nodup ∧
    (Dag.validateExplicitDag [⟨"a", []⟩, ⟨"b", ["a"]⟩] [["a"], ["b"]] = .ok () ↔
      Dag.amendedDagOk [⟨"a", []⟩, ⟨"b", ["a"]⟩] [["a"], ["b"]]) :=
  ⟨by decide, validateExplicitDag_ok_iff_amended _ _ (by decide)⟩

/-- C3 counterexample: the dataset `a`, `b (parent a)` with explicit dag
`[["a", "b"]]` is accepted by validation although the parent `a` lies in
the *same* level as `b`, not in a strictly earlier level — so the claimed
acceptance condition does not hold. -/
theorem validateExplicitDag_same_level_parent :
    Dag.validateExplicitDag [⟨"a", []⟩, ⟨"b", ["a"]⟩] [["a", "b"]] = .ok () ∧
    ¬ Dag.claimDagOk [⟨"a", []⟩, ⟨"b", ["a"]⟩] [["a", "b"]] := by
  constructor
  · rfl
  · decide

/-! ## Primitive generators (`src/datagen/core/generators/primitives.py`)

`generate_distribution` samples `size` values from the selected numpy
distribution and hard-clamps them with `np.clip`; `sample_fanout` samples
per-parent fanout counts and applies the declared min/max bounds with
`np.maximum`/`np.minimum`.  numpy samplers are modelled as abstract draw
streams (index ↦ draw); every property below holds for every stream. -/

namespace Prim

/-- Abstract numpy random generator: each distribution method is an
arbitrary stream of draws, indexed by the position in the sampled block.
`poisson` draws are natural numbers (numpy returns nonnegative
integers); `integers lo hi i` is the `i`-th draw of
`rng.integers(lo, hi)`. -/
structure Rng where
  normal : ℝ → ℝ → ℕ → ℝ
  lognormal : ℝ → ℝ → ℕ → ℝ
  uniform : ℝ → ℝ → ℕ → ℝ
  poisson : ℝ → ℕ → ℕ
  integers : Int → Int → ℕ → Int

/-- The `params` dict of a distribution spec (`dict.get` with defaults). -/
structure DistParams where
  mean : Option ℝ
  std : Option ℝ
  sigma : Option ℝ
  low : Option ℝ
  high : Option ℝ
  lam : Option ℝ

/-- `clamp_values`: `np.clip(values, clamp[0], clamp[1])`, i.e.
`minimum(maximum(v, lo), hi)` elementwise. -/
noncomputable def clamp_values (values : List ℝ) (clamp : ℝ × ℝ) : List ℝ :=
  values.map (fun v => min (max v clamp.1) clamp.2)

/-- `generate_distribution(dist_type, params, size, rng, clamp)`. -/
noncomputable def generate_distribution (dist_type : String) (params : DistParams)
    (size : ℕ) (rng : Rng) (clamp : ℝ × ℝ) : Except String (List ℝ) :=
  if dist_type = "normal" then
    let mean := params.mean.getD 0
    let std := params.std.getD 1
    .ok (clamp_values (List.ofFn (fun i : Fin size => rng.normal mean std i)) clamp)
  else if dist_type = "lognormal" then
    let mean := params.mean.getD 0
    let sigma := params.sigma.getD 1
    .ok (clamp_values (List.ofFn (fun i : Fin size => rng.lognormal mean sigma i)) clamp)
  else if dist_type = "uniform" then
    let low := params.low.getD 0
    let high := params.high.getD 1
    .ok (clamp_values (List.ofFn (fun i : Fin size => rng.uniform low high i)) clamp)
  else if dist_type = "poisson" then
    let lam := params.lam.getD 1
    .ok (clamp_values (List.ofFn (fun i : Fin size => (rng.poisson lam i : ℝ))) clamp)
  else
    .error ("Unknown distribution type: " ++ dist_type)

theorem clamp_values_mem (values : List ℝ) (lo hi : ℝ) (hle : lo ≤ hi) :
    ∀ v ∈ clamp_values values (lo, hi), lo ≤ v ∧ v ≤ hi := by
  intro v hv
  obtain ⟨x, -, rfl⟩ := List.mem_map.mp hv
  constructor
  · exact le_min (le_max_right x lo) hle
  · exact min_le_right _ _

theorem clamp_values_length (values : List ℝ) (c : ℝ × ℝ) :
    (clamp_values values c).length = values.length := by
  simp [clamp_values]

end Prim

namespace Prim

theorem clamp_spec (raw : List ℝ) (lo hi : ℝ) (hle : lo ≤ hi) (size : ℕ)
    (hlen : raw.length = size) :
    (clamp_values raw (lo, hi)).length = size ∧
      ∀ v ∈ clamp_values raw (lo, hi), lo ≤ v ∧ v ≤ hi :=
  ⟨by rw [clamp_values_length, hlen], clamp_values_mem raw lo hi hle⟩

end Prim

/-- C7: for every distribution type in {normal, lognormal, uniform,
poisson}, every size `n` and every clamp range `[lo, hi]` (`lo ≤ hi`),
`generate_distribution` succeeds and all `n` returned values lie within
`[lo, hi]`, whatever the underlying random draws. -/
theorem generate_distribution_within_clamp (dist_type : String) (params : Prim.DistParams)
    (size : ℕ) (rng : Prim.Rng) (lo hi : ℝ)
    (hdist : dist_type = "normal" ∨ dist_type = "lognormal" ∨
             dist_type = "uniform" ∨ dist_type = "poisson")
    (hle : lo ≤ hi) :
    ∃ vs, Prim.generate_distribution dist_type params size rng (lo, hi) = .ok vs ∧
      vs.length = size ∧ ∀ v ∈ vs, lo ≤ v ∧ v ≤ hi := by
  rcases hdist with rfl | rfl | rfl | rfl
  · have heq : Prim.generate_distribution "normal" params size rng (lo, hi) =
        .ok (Prim.clamp_values (List.ofFn fun i : Fin size =>
          rng.normal (params.mean.getD 0) (params.std.getD 1) i) (lo, hi)) := by
      rw [Prim.generate_distribution, if_pos rfl]
    exact ⟨_, heq, Prim.clamp_spec _ lo hi hle size (by simp)⟩
  · have heq : Prim.generate_distribution "lognormal" params size rng (lo, hi) =
        .ok (Prim.clamp_values (List.ofFn fun i : Fin size =>
          rng.lognormal (params.mean.getD 0) (params.sigma.getD 1) i) (lo, hi)) := by
      rw [Prim.generate_distribution, if_neg (by decide), if_pos rfl]
    exact ⟨_, heq, Prim.clamp_spec _ lo hi hle size (by simp)⟩
  · have heq : Prim.generate_distribution "uniform" params size rng (lo, hi) =
        .ok (Prim.clamp_values (List.ofFn fun i : Fin size =>
          rng.uniform (params.low.getD 0) (params.high.getD 1) i) (lo, hi)) := by
      rw [Prim.generate_distribution, if_neg (by decide), if_neg (by decide), if_pos rfl]
    exact ⟨_, heq, Prim.clamp_spec _ lo hi hle size (by simp)⟩
  · have heq : Prim.generate_distribution "poisson" params size rng (lo, hi) =
        .ok (Prim.clamp_values (List.ofFn fun i : Fin size =>
          (rng.poisson (params.lam.getD 1) i : ℝ)) (lo, hi)) := by
      rw [Prim.generate_distribution, if_neg (by decide), if_neg (by decide),
        if_neg (by decide), if_pos rfl]
    exact ⟨_, heq, Prim.clamp_spec _ lo hi hle size (by simp)⟩

/-- A concrete draw-stream record used to instantiate witnesses. -/
noncomputable def witnessRng : Prim.Rng :=
  { normal := fun _ _ _ => 200
    lognormal := fun _ _ _ => 200
    uniform := fun _ _ _ => 200
    poisson := fun _ _ => 3
    integers := fun _ _ _ => 7 }

/-- Witness for C7 at the spec's scenario: normal, mean 100, std 15,
clamp [50, 150], n = 10000. -/
theorem generate_distribution_within_clamp_witness :
    ∃ vs, Prim.generate_distribution "normal"
        ⟨some 100, some 15, none, none, none, none⟩ 10000 witnessRng (50, 150) = .ok vs ∧
      vs.length = 10000 ∧ ∀ v ∈ vs, (50:ℝ) ≤ v ∧ v ≤ 150 :=
  generate_distribution_within_clamp "normal" ⟨some 100, some 15, none, none, none, none⟩
    10000 witnessRng 50 150 (Or.inl rfl) (by norm_num)

namespace Prim

/-- `sample_fanout(distribution, size, rng, lambda_, min_val, max_val)`:
sample raw counts from the selected distribution, then apply the declared
bounds with `np.maximum(counts, min_val)` / `np.minimum(counts, max_val)`
when present. -/
def sample_fanout (distribution : String) (size : ℕ) (rng : Rng)
    (lambda_ : Option ℝ) (min_val max_val : Option Int) : Except String (List Int) := do
  let raw ←
    if distribution = "poisson" then
      match lambda_ with
      | none => Except.error "Poisson fanout requires 'lambda' parameter"
      | some lam => pure (List.ofFn (fun i : Fin size => (rng.poisson lam i : Int)))
    else if distribution = "uniform" then
      match min_val, max_val with
      | some lo, some hi => pure (List.ofFn (fun i : Fin size => rng.integers lo (hi + 1) i))
      | _, _ => Except.error "Uniform fanout requires 'min' and 'max' parameters"
    else
      Except.error ("Unknown fanout distribution: " ++ distribution)
  let bounded := match min_val with
    | some lo => raw.map (fun c => max c lo)
    | none => raw
  let bounded2 := match max_val with
    | some hi => bounded.map (fun c => min c hi)
    | none => bounded
  pure bounded2

theorem maxmin_mem (raw : List Int) (lo hi : Int) (hle : lo ≤ hi) :
    ∀ c ∈ (raw.map (fun c => max c lo)).map (fun c => min c hi), lo ≤ c ∧ c ≤ hi := by
  intro c hc
  obtain ⟨b, hb, rfl⟩ := List.mem_map.mp hc
  obtain ⟨a, -, rfl⟩ := List.mem_map.mp hb
  exact ⟨le_min (le_max_right a lo) hle, min_le_right _ _⟩

theorem sample_fanout_within_bounds (distribution : String) (size : ℕ) (rng : Rng)
    (lambda_ : Option ℝ) (lo hi : Int) (hle : lo ≤ hi) (counts : List Int)
    (h : sample_fanout distribution size rng lambda_ (some lo) (some hi) = .ok counts) :
    ∀ c ∈ counts, lo ≤ c ∧ c ≤ hi := by
  unfold sample_fanout at h
  by_cases h1 : distribution = "poisson"
  · rw [if_pos h1] at h
    cases lambda_ with
    | none => cases h
    | some lam =>
      simp only [bind, Except.bind, pure, Except.pure, Except.ok.injEq] at h
      subst h
      exact maxmin_mem _ lo hi hle
  · rw [if_neg h1] at h
    by_cases h2 : distribution = "uniform"
    · rw [if_pos h2] at h
      simp only [bind, Except.bind, pure, Except.pure, Except.ok.injEq] at h
      subst h
      exact maxmin_mem _ lo hi hle
    · rw [if_neg h2] at h
      cases h

end Prim

/-! ## Executor fanout and effect scaling (`src/datagen/core/executor.py`)

`generate_fact` samples per-parent fanout (or defaults to one child per
parent), then — when the node has table-level modifiers — rescales the
counts with `_apply_table_effects_to_fanout`, which per parent row finds
the first matching effect row (join keys, then start/end window around
the parent's first datetime column value) and multiplies/adds its field
value, finally rounding (`np.round`, half-to-even) and clamping below at
zero only.  DataFrames are modelled column-major; timestamps are exact
rationals on a linear time axis. -/

namespace Exec

/-- A cell of a generated table. -/
inductive Value where
  | num (q : ℚ)
  | str (s : String)
  | time (t : ℚ)
  | null
deriving DecidableEq

/-- A DataFrame column: name, whether its dtype is datetime64, cells. -/
structure Col where
  name : String
  isDatetime : Bool
  cells : List Value
deriving DecidableEq

/-- A pandas DataFrame, column-major. -/
structure Frame where
  cols : List Col
deriving DecidableEq

def Frame.nrows (f : Frame) : ℕ := ((f.cols.head?).map (fun c => c.cells.length)).getD 0

def Frame.col? (f : Frame) (name : String) : Option Col :=
  f.cols.find? (fun c => c.name == name)

def Frame.hasCol (f : Frame) (name : String) : Bool := (f.col? name).isSome

/-- Cell at column `name`, row `i` (missing data as `null`). -/
def Frame.cell (f : Frame) (name : String) (i : ℕ) : Value :=
  ((f.col? name).map (fun c => c.cells.getD i .null)).getD .null

/-- The first column with a datetime dtype, in column order. -/
def Frame.firstDatetimeCol (f : Frame) : Option String :=
  (f.cols.find? (fun c => c.isDatetime)).map (fun c => c.name)

/-- `pd.to_datetime(v)` on a cell, as a rational time point. -/
def timeVal : Value → ℚ
  | .time t => t
  | .num q => q
  | _ => 0

/-- `float(v)` on a cell. -/
def numVal : Value → ℚ
  | .num q => q
  | .time t => t
  | _ => 0

/-- The `window` argument bag of an effect modifier. -/
structure EffectWindow where
  start_col : Option String
  end_col : Option String
deriving DecidableEq

/-- The `map` argument bag of an effect modifier
(`field`, `op` default `"mul"`, `default` default `1.0`). -/
structure EffectMap where
  field : Option String
  op : Option String
  default : Option ℚ
deriving DecidableEq

/-- A table-level modifier as read by
`_apply_table_effects_to_fanout` (transform kind plus effect args). -/
structure TableModifier where
  transform : String
  effect_table : Option String
  onKeys : List (String × String)
  window : EffectWindow
  mapSpec : EffectMap
deriving DecidableEq

/-- One iteration of the `for modifier in node.modifiers` loop of
`_apply_table_effects_to_fanout`, transforming the running float counts. -/
def applyOneEffect (gen : List (String × Frame)) (tfStart tfEnd : ℚ)
    (parent_df : Frame) (m : TableModifier) (counts : List ℚ) : List ℚ :=
  if m.transform ≠ "effect" then counts
  else
    match m.effect_table with
    | none => counts
    | some name =>
      match gen.find? (fun p => p.1 == name) with
      | none => counts
      | some (_, effect_df) =>
        let start_col := m.window.start_col
        let end_col := m.window.end_col
        let field := m.mapSpec.field
        let op := m.mapSpec.op.getD "mul"
        let dflt := m.mapSpec.default.getD 1
        let tsCol := parent_df.firstDatetimeCol
        let timestampOf : ℕ → ℚ := fun idx =>
          match tsCol with
          | some c => timeVal (parent_df.cell c idx)
          | none => tfStart + (tfEnd - tfStart) / 2
        (List.range counts.length).map (fun idx =>
          let allIdx := List.range effect_df.nrows
          let byKeys := m.onKeys.foldl (fun acc lkek =>
            if parent_df.hasCol lkek.1 then
              acc.filter (fun j => effect_df.cell lkek.2 j == parent_df.cell lkek.1 idx)
            else acc) allIdx
          let byWindow :=
            match start_col, end_col with
            | some sc, some ec =>
              if effect_df.hasCol sc && effect_df.hasCol ec then
                byKeys.filter (fun j =>
                  decide (timeVal (effect_df.cell sc j) ≤ timestampOf idx) &&
                  decide (timestampOf idx ≤ timeVal (effect_df.cell ec j)))
              else byKeys
            | _, _ => byKeys
          let effectValue : ℚ :=
            match byWindow with
            | [] => dflt
            | j :: _ =>
              match field with
              | some fl => if effect_df.hasCol fl then numVal (effect_df.cell fl j) else 1
              | none => 1
          let c := counts.getD idx 0
          if op = "mul" then c * effectValue
          else if op = "add" then c + effectValue
          else c)

/-- `np.round`: round half to even. -/
def npRound (q : ℚ) : Int :=
  let f := ⌊q⌋
  let frac := q - f
  if frac < 1/2 then f
  else if 1/2 < frac then f + 1
  else if f % 2 = 0 then f else f + 1

/-- `_apply_table_effects_to_fanout`: fold all table modifiers over the
float-cast counts, then `np.maximum(0, np.round(result)).astype(int)`. -/
def _apply_table_effects_to_fanout (gen : List (String × Frame)) (tfStart tfEnd : ℚ)
    (parent_df : Frame) (modifiers : List TableModifier)
    (fanout_counts : List Int) : List Int :=
  let result := modifiers.foldl (fun cs m => applyOneEffect gen tfStart tfEnd parent_df m cs)
    (fanout_counts.map (fun c => (c : ℚ)))
  result.map (fun q => max 0 (npRound q))

/-- The fanout spec of a fact node (`Fanout` pydantic model). -/
structure FanoutSpec where
  distribution : String
  lambda_ : Option ℝ
  min : Option Int
  max : Option Int

/-- The parts of a fact `Node` relevant to fanout resolution. -/
structure FactNode where
  fanout : Option FanoutSpec
  modifiers : List TableModifier

/-- The fanout-count portion of `DatasetExecutor.generate_fact`: sample
per-parent counts (default: one child per parent), then apply table-level
effects when the node has modifiers. -/
def factFanoutCounts (gen : List (String × Frame)) (tfStart tfEnd : ℚ)
    (parent_df : Frame) (node : FactNode) (rng : Prim.Rng) : Except String (List Int) := do
  let counts ←
    match node.fanout with
    | some spec =>
      Prim.sample_fanout spec.distribution parent_df.nrows rng spec.lambda_ spec.min spec.max
    | none => pure (List.replicate parent_df.nrows 1)
  if node.modifiers.isEmpty then
    pure counts
  else
    pure (_apply_table_effects_to_fanout gen tfStart tfEnd parent_df node.modifiers counts)

/-- `np.repeat(np.arange(len(parent_df)), fanout_counts)`: the parent row
index of each child row, in parent order. -/
def parentIndices (counts : List Int) : List ℕ :=
  (List.range counts.length).flatMap (fun i => List.replicate (counts.getD i 0).toNat i)

end Exec

namespace Exec

/-- The parts of an entity `Node` relevant to row-count resolution. -/
structure EntityNode where
  rows : Option ℕ

/-- The row-count skeleton of `DatasetExecutor.generate_entity`:
`n_rows = node.rows if node.rows is not None else 1000`, and every
column generator is invoked with that size.  Column generation itself is
the GeneratorRegistry's job; here each column carries its name, dtype
flag and its generator as an abstract function of the requested size. -/
def generate_entity (node : EntityNode)
    (columns : List (String × Bool × (ℕ → List Value))) : Frame :=
  let n_rows := node.rows.getD 1000
  { cols := columns.map (fun c => { name := c.1, isDatetime := c.2.1, cells := c.2.2 n_rows }) }

end Exec

/-- C2 (amended): every fanout count *sampled* by `sample_fanout` for a
declared bounded fanout `[lo, hi]` lies within `[lo, hi]`; after
table-level effect scaling (`_apply_table_effects_to_fanout`) the
executor guarantees only non-negativity of the scaled counts. -/
theorem fanout_bounds_amended (lo hi : Int) (hle : lo ≤ hi) :
    (∀ (distribution : String) (size : ℕ) (rng : Prim.Rng) (lambda_ : Option ℝ)
       (counts : List Int),
       Prim.sample_fanout distribution size rng lambda_ (some lo) (some hi) = .ok counts →
       ∀ c ∈ counts, lo ≤ c ∧ c ≤ hi) ∧
    (∀ (gen : List (String × Exec.Frame)) (tfS tfE : ℚ) (pdf : Exec.Frame)
       (mods : List Exec.TableModifier) (counts0 : List Int),
       ∀ c ∈ Exec._apply_table_effects_to_fanout gen tfS tfE pdf mods counts0, 0 ≤ c) := by
  constructor
  · intro dist size rng lam counts h
    exact Prim.sample_fanout_within_bounds dist size rng lam lo hi hle counts h
  · intro gen tfS tfE pdf mods counts0 c hc
    obtain ⟨q, -, rfl⟩ := List.mem_map.mp hc
    exact le_max_left 0 _

/-- Witness for C2's amended theorem at the declared bounds [0, 20]. -/
theorem fanout_bounds_amended_witness :
    (0:Int) ≤ 20 ∧
    ((∀ (distribution : String) (size : ℕ) (rng : Prim.Rng) (lambda_ : Option ℝ)
        (counts : List Int),
        Prim.sample_fanout distribution size rng lambda_ (some 0) (some 20) = .ok counts →
        ∀ c ∈ counts, 0 ≤ c ∧ c ≤ 20) ∧
     (∀ (gen : List (String × Exec.Frame)) (tfS tfE : ℚ) (pdf : Exec.Frame)
        (mods : List Exec.TableModifier) (counts0 : List Int),
        ∀ c ∈ Exec._apply_table_effects_to_fanout gen tfS tfE pdf mods counts0, 0 ≤ c)) :=
  ⟨by norm_num, fanout_bounds_amended 0 20 (by norm_num)⟩

/-- Concrete draw streams for the fanout counterexamples: every
`rng.integers` draw is 10. -/
noncomputable def fanoutCexRng : Prim.Rng :=
  { normal := fun _ _ _ => 0
    lognormal := fun _ _ _ => 0
    uniform := fun _ _ _ => 0
    poisson := fun _ _ => 0
    integers := fun _ _ _ => 10 }

/-- One-row parent table with a datetime column at time 50. -/
def fanoutCexParent : Exec.Frame :=
  { cols := [{ name := "signup_at", isDatetime := true, cells := [Exec.Value.time 50] }] }

/-- Effect table: one promo row with window [0, 100] and multiplier 5. -/
def fanoutCexPromo : Exec.Frame :=
  { cols := [{ name := "start_at", isDatetime := true, cells := [Exec.Value.time 0] },
             { name := "end_at", isDatetime := true, cells := [Exec.Value.time 100] },
             { name := "boost", isDatetime := false, cells := [Exec.Value.num 5] }] }

/-- Fact node with declared uniform fanout [0, 20] and a table-level
effect modifier multiplying fanout by the promo's `boost` field. -/
noncomputable def fanoutCexNode : Exec.FactNode :=
  { fanout := some { distribution := "uniform", lambda_ := none, min := some 0, max := some 20 }
    modifiers := [{ transform := "effect", effect_table := some "promo", onKeys := [],
                    window := { start_col := some "start_at", end_col := some "end_at" },
                    mapSpec := { field := some "boost", op := some "mul", default := some 1 } }] }

/-- C2 counterexample: with declared fanout bounds [0, 20], a sampled
count of 10 and a matching table-level effect multiplier of 5, the
executor produces the per-parent fanout count 50, outside the declared
[0, 20] — effect scaling is not re-clamped to the declared bounds. -/
theorem fanout_effect_escapes_declared_bounds :
    Exec.factFanoutCounts [("promo", fanoutCexPromo)] 0 100 fanoutCexParent
      fanoutCexNode fanoutCexRng = .ok [50] ∧
    ¬ ((0:Int) ≤ 50 ∧ (50:Int) ≤ 20) := by
  constructor
  · have h1 : Prim.sample_fanout "uniform" 1 fanoutCexRng none (some 0) (some 20) =
        .ok [10] := by
      simp +decide [Prim.sample_fanout, fanoutCexRng, bind, Except.bind, pure, Except.pure]
    simp +decide only [Exec.factFanoutCounts, fanoutCexNode,
      Exec._apply_table_effects_to_fanout, Exec.applyOneEffect, Exec.Frame.nrows,
      Exec.Frame.firstDatetimeCol, Exec.Frame.hasCol, Exec.Frame.col?, Exec.Frame.cell,
      Exec.timeVal, Exec.numVal, fanoutCexParent, fanoutCexPromo, bind, Except.bind,
      pure, Except.pure, h1, String.reduceBEq, List.find?, Option.map, Option.getD,
      Option.isSome, List.isEmpty, List.map, List.range_succ, List.range_zero,
      List.filter, List.foldl, List.getD, List.get?, List.length, List.head?]
    norm_num [Exec.npRound]
  · norm_num

namespace Exec

theorem parentIndices_replicate_one (n : ℕ) :
    parentIndices (List.replicate n 1) = List.range n := by
  unfold parentIndices
  rw [List.length_replicate]
  have h : ∀ i ∈ List.range n,
      List.replicate ((List.replicate n (1:Int)).getD i 0).toNat i = [i] := by
    intro i hi
    rw [List.getD_eq_getElem?_getD, List.getElem?_replicate, if_pos (List.mem_range.mp hi)]
    rfl
  calc (List.range n).flatMap
        (fun i => List.replicate ((List.replicate n (1:Int)).getD i 0).toNat i)
      = (List.range n).flatMap (fun i => [i]) := by
        rw [List.flatMap, List.flatMap, List.map_congr_left h]
    _ = List.range n := by simp

end Exec

/-- C10 (amended): an entity node with no row-count override is generated
with exactly 1000 rows (whenever the registry fulfills its contract of
returning `size` values per generator call); a fact node with a parent,
no fanout spec and no table-level modifiers gets exactly one child row
per parent row, expanded in parent order.  (With table-level effect
modifiers present, the default per-parent count of one is rescaled like
any sampled fanout.) -/
theorem default_rows_and_unit_fanout :
    (∀ (node : Exec.EntityNode) (columns : List (String × Bool × (ℕ → List Exec.Value))),
       node.rows = none → columns ≠ [] →
       (∀ c ∈ columns, ∀ n, (c.2.2 n).length = n) →
       (Exec.generate_entity node columns).nrows = 1000) ∧
    (∀ (gen : List (String × Exec.Frame)) (tfS tfE : ℚ) (pdf : Exec.Frame)
       (node : Exec.FactNode) (rng : Prim.Rng),
       node.fanout = none → node.modifiers = [] →
       Exec.factFanoutCounts gen tfS tfE pdf node rng = .ok (List.replicate pdf.nrows 1) ∧
       Exec.parentIndices (List.replicate pdf.nrows 1) = List.range pdf.nrows) := by
  constructor
  · intro node columns hrows hne hlen
    match columns, hne with
    | c :: rest, _ =>
      show (Exec.generate_entity node (c :: rest)).nrows = 1000
      unfold Exec.generate_entity Exec.Frame.nrows
      simp only [List.map_cons, List.head?_cons, Option.map_some, Option.getD_some]
      show (c.2.2 (node.rows.getD 1000)).length = 1000
      rw [hlen c (by simp) _, hrows]
      rfl
  · intro gen tfS tfE pdf node rng hf hm
    constructor
    · simp [Exec.factFanoutCounts, hf, hm, bind, Except.bind, pure, Except.pure]
    · exact Exec.parentIndices_replicate_one pdf.nrows

/-- Witness for C10's amended theorem: a one-column entity node with
`rows = None`, and a one-row parent fact with no fanout and no
modifiers. -/
theorem default_rows_and_unit_fanout_witness :
    ((⟨none⟩ : Exec.EntityNode).rows = none ∧
      ([("id", false, fun n => List.replicate n (Exec.Value.num 0))] :
        List (String × Bool × (ℕ → List Exec.Value))) ≠ [] ∧
      (Exec.generate_entity ⟨none⟩
        [("id", false, fun n => List.replicate n (Exec.Value.num 0))]).nrows = 1000) ∧
    (Exec.factFanoutCounts [] 0 100 fanoutCexParent ⟨none, []⟩ fanoutCexRng =
        .ok (List.replicate fanoutCexParent.nrows 1) ∧
      Exec.parentIndices (List.replicate fanoutCexParent.nrows 1) =
        List.range fanoutCexParent.nrows) :=
  ⟨⟨rfl, by simp,
    default_rows_and_unit_fanout.1 ⟨none⟩ _ rfl (by simp) (by intro c hc n; simp at hc; simp [hc])⟩,
   default_rows_and_unit_fanout.2 [] 0 100 fanoutCexParent ⟨none, []⟩ fanoutCexRng rfl rfl⟩

/-- Two-row parent table with a datetime column. -/
def unitFanoutCexParent : Exec.Frame :=
  { cols := [{ name := "created_at", isDatetime := true,
               cells := [Exec.Value.time 10, Exec.Value.time 20] }] }

/-- Effect table: one campaign row with window [0, 100] and multiplier 3. -/
def unitFanoutCexCampaign : Exec.Frame :=
  { cols := [{ name := "start_at", isDatetime := true, cells := [Exec.Value.time 0] },
             { name := "end_at", isDatetime := true, cells := [Exec.Value.time 100] },
             { name := "mult", isDatetime := false, cells := [Exec.Value.num 3] }] }

/-- Fact node with a parent, *no* fanout spec, but a table-level effect
modifier. -/
noncomputable def unitFanoutCexNode : Exec.FactNode :=
  { fanout := none
    modifiers := [{ transform := "effect", effect_table := some "campaign", onKeys := [],
                    window := { start_col := some "start_at", end_col := some "end_at" },
                    mapSpec := { field := some "mult", op := some "mul", default := some 1 } }] }

/-- C10 counterexample: a fact node with a parent and no fanout spec but
with a table-level effect modifier generates three child rows per parent
row (counts [3, 3] for a two-row parent), not exactly one per parent. -/
theorem unit_fanout_scaled_by_effect :
    Exec.factFanoutCounts [("campaign", unitFanoutCexCampaign)] 0 100 unitFanoutCexParent
      unitFanoutCexNode fanoutCexRng = .ok [3, 3] ∧
    [3, 3] ≠ List.replicate unitFanoutCexParent.nrows (1:Int) := by
  constructor
  · simp +decide only [Exec.factFanoutCounts, unitFanoutCexNode,
      Exec._apply_table_effects_to_fanout, Exec.applyOneEffect, Exec.Frame.nrows,
      Exec.Frame.firstDatetimeCol, Exec.Frame.hasCol, Exec.Frame.col?, Exec.Frame.cell,
      Exec.timeVal, Exec.numVal, unitFanoutCexParent, unitFanoutCexCampaign, bind,
      Except.bind, pure, Except.pure, String.reduceBEq, List.find?, Option.map,
      Option.getD, Option.isSome, List.isEmpty, List.map, List.range_succ,
      List.range_zero, List.filter, List.foldl, List.getD, List.get?, List.length,
      List.head?, List.replicate]
    norm_num [Exec.npRound]
  · simp +decide [Exec.Frame.nrows, unitFanoutCexParent]

/-! ## Funnel stage progression (`src/datagen/core/stage_utils.py`)

`calculate_stage_progression`: stage 0 is always reached; for each later
stage a uniform(0,1) draw is compared with the segment-adjusted
transition rate capped at 1.0; the entity advances exactly when the draw
is strictly below it and stops otherwise.  `draws pidx k` is the uniform
draw consumed by parent `pidx` at stage index `k`. -/

namespace Stage

/-- One entry of the `stages` list. -/
structure StageCfg where
  stage_name : String
  transition_rate : ℚ
deriving DecidableEq

/-- The stage configuration: stages plus per-segment
`transition_multiplier` values. -/
structure StageConfig where
  stages : List StageCfg
  segment_variation : List (String × ℚ)
deriving DecidableEq

/-- `transition_multiplier = 1.0`, overridden when the entity has a
truthy segment present in `segment_variation`. -/
def segmentMultiplier (segment_variation : List (String × ℚ)) (segment : Option String) : ℚ :=
  match segment with
  | some s =>
    if s ≠ "" then ((segment_variation.find? (fun p => p.1 == s)).map Prod.snd).getD 1
    else 1
  | none => 1

/-- The `for stage_idx, stage in enumerate(stages)` loop from index 1 on:
`rest` are the stages still to visit, `idx` the index of the first of
them, `cur` the current reached index; advance on `draw < min(1, rate *
mult)`, else break. -/
def advanceLoop (mult : ℚ) (draws : ℕ → ℚ) : List StageCfg → ℕ → ℕ → ℕ
  | [], _, cur => cur
  | stage :: tail, idx, cur =>
    let effective_rate := min 1 (stage.transition_rate * mult)
    if draws idx < effective_rate then advanceLoop mult draws tail (idx + 1) idx
    else cur

/-- Final `current_stage_index` for one entity. -/
def progressEntity (stages : List StageCfg) (mult : ℚ) (draws : ℕ → ℚ) : ℕ :=
  advanceLoop mult draws (stages.drop 1) 1 0

/-- One row of the progression result. -/
structure ProgressRow where
  parent_index : ℕ
  stage_reached : String
  stage_index : ℕ
deriving DecidableEq

/-- `calculate_stage_progression` over the parent entities (each given by
its optional segment value). -/
def calculate_stage_progression (cfg : StageConfig) (entities : List (Option String))
    (draws : ℕ → ℕ → ℚ) : Except String (List ProgressRow) :=
  if cfg.stages.isEmpty then .error "stage_config must have 'stages' list"
  else .ok ((List.range entities.length).map (fun pidx =>
    let mult := segmentMultiplier cfg.segment_variation (entities.getD pidx none)
    let cur := progressEntity cfg.stages mult (draws pidx)
    { parent_index := pidx
      stage_reached := (cfg.stages.getD cur ⟨"", 0⟩).stage_name
      stage_index := cur }))

/-- Spec-side description of the reached index: the number of initial
consecutive successful transitions through stages 1, 2, … (a transition
succeeds exactly when its uniform draw is strictly below the
segment-adjusted rate capped at 1.0). -/
def streakAux (mult : ℚ) (draws : ℕ → ℚ) : List StageCfg → ℕ → ℕ
  | [], _ => 0
  | stage :: tail, idx =>
    if draws idx < min 1 (stage.transition_rate * mult) then
      1 + streakAux mult draws tail (idx + 1)
    else 0

/-- Number of initial consecutive successful transitions of an entity. -/
def successStreak (stages : List StageCfg) (mult : ℚ) (draws : ℕ → ℚ) : ℕ :=
  streakAux mult draws (stages.drop 1) 1

/-- `(stage_progression["stage_index"] >= k).sum()`. -/
def cumulativeCount (results : List ProgressRow) (k : ℕ) : ℕ :=
  results.countP (fun r => decide (k ≤ r.stage_index))

theorem advanceLoop_eq_streak (mult : ℚ) (draws : ℕ → ℚ) (rest : List StageCfg)
    (idx : ℕ) (hidx : 1 ≤ idx) :
    advanceLoop mult draws rest idx (idx - 1) = (idx - 1) + streakAux mult draws rest idx := by
  induction rest generalizing idx with
  | nil => simp [advanceLoop, streakAux]
  | cons stage tail ih =>
    show advanceLoop mult draws (stage :: tail) idx (idx - 1) = _
    rw [advanceLoop, streakAux]
    by_cases h : draws idx < min 1 (stage.transition_rate * mult)
    · rw [if_pos h, if_pos h]
      have := ih (idx + 1) (by omega)
      simpa [Nat.add_sub_cancel] using this.trans (by omega)
    · rw [if_neg h, if_neg h]
      omega

theorem streakAux_le_length (mult : ℚ) (draws : ℕ → ℚ) (rest : List StageCfg) (idx : ℕ) :
    streakAux mult draws rest idx ≤ rest.length := by
  induction rest generalizing idx with
  | nil => simp [streakAux]
  | cons stage tail ih =>
    rw [streakAux]
    by_cases h : draws idx < min 1 (stage.transition_rate * mult)
    · rw [if_pos h]
      have := ih (idx + 1)
      simp only [List.length_cons]
      omega
    · rw [if_neg h]
      simp

theorem progressEntity_eq_streak (stages : List StageCfg) (mult : ℚ) (draws : ℕ → ℚ) :
    progressEntity stages mult draws = successStreak stages mult draws := by
  have := advanceLoop_eq_streak mult draws (stages.drop 1) 1 (le_refl 1)
  simpa [progressEntity, successStreak] using this

end Stage

namespace Stage

theorem cumulativeCount_antitone (results : List ProgressRow) (k1 k2 : ℕ) (h : k1 ≤ k2) :
    cumulativeCount results k2 ≤ cumulativeCount results k1 := by
  apply List.countP_mono_left
  intro r _ hr
  simp only [decide_eq_true_eq] at hr ⊢
  omega

end Stage

/-- C5: in every funnel simulation every entity gets a result row;
the reached stage index equals the number of initial consecutive
successful transitions (a transition succeeds exactly when its
uniform(0,1) draw is strictly below the segment-adjusted transition rate
capped at 1.0) — in particular stage 0 is always reached and no stage is
skipped — the reached index is a valid stage index, and cumulative
per-stage reach counts are non-increasing in stage order. -/
theorem stage_progression_characterization (cfg : Stage.StageConfig)
    (entities : List (Option String)) (draws : ℕ → ℕ → ℚ) (hne : cfg.stages ≠ []) :
    ∃ results, Stage.calculate_stage_progression cfg entities draws = .ok results ∧
      results.length = entities.length ∧
      (∀ r ∈ results,
        r.stage_index < cfg.stages.length ∧
        r.stage_index = Stage.successStreak cfg.stages
          (Stage.segmentMultiplier cfg.segment_variation (entities.getD r.parent_index none))
          (draws r.parent_index) ∧
        r.stage_reached = (cfg.stages.getD r.stage_index ⟨"", 0⟩).stage_name) ∧
      (∀ k1 k2, k1 ≤ k2 →
        Stage.cumulativeCount results k2 ≤ Stage.cumulativeCount results k1) := by
  refine ⟨(List.range entities.length).map (fun pidx =>
    let mult := Stage.segmentMultiplier cfg.segment_variation (entities.getD pidx none)
    let cur := Stage.progressEntity cfg.stages mult (draws pidx)
    { parent_index := pidx
      stage_reached := (cfg.stages.getD cur ⟨"", 0⟩).stage_name
      stage_index := cur }), ?_, ?_, ?_, ?_⟩
  · rw [Stage.calculate_stage_progression,
      if_neg (by simpa [List.isEmpty_iff] using hne)]
  · simp
  · intro r hr
    obtain ⟨pidx, hpidx, rfl⟩ := List.mem_map.mp hr
    refine ⟨?_, ?_, rfl⟩
    · have h1 := Stage.streakAux_le_length
        (Stage.segmentMultiplier cfg.segment_variation (entities.getD pidx none))
        (draws pidx) (cfg.stages.drop 1) 1
      have h2 : cfg.stages.length ≠ 0 := by
        intro hc
        exact hne (List.length_eq_zero.mp hc)
      simp only [Stage.progressEntity_eq_streak, Stage.successStreak]
      simp only [List.length_drop] at h1
      omega
    · exact Stage.progressEntity_eq_streak _ _ _
  · intro k1 k2 h
    exact Stage.cumulativeCount_antitone _ k1 k2 h

/-- Witness for C5 at a concrete two-stage funnel with one entity. -/
theorem stage_progression_characterization_witness :
    ∃ results, Stage.calculate_stage_progression
        ⟨[⟨"signup", 1⟩, ⟨"activation", 35/100⟩], []⟩ [none] (fun _ _ => 1/2) =
        .ok results ∧
      results.length = ([none] : List (Option String)).length ∧
      (∀ r ∈ results,
        r.stage_index < ([⟨"signup", 1⟩, ⟨"activation", 35/100⟩] : List Stage.StageCfg).length ∧
        r.stage_index = Stage.successStreak [⟨"signup", 1⟩, ⟨"activation", 35/100⟩]
          (Stage.segmentMultiplier [] (([none] : List (Option String)).getD r.parent_index none))
          ((fun _ _ => (1:ℚ)/2) r.parent_index) ∧
        r.stage_reached =
          (([⟨"signup", 1⟩, ⟨"activation", 35/100⟩] : List Stage.StageCfg).getD
            r.stage_index ⟨"", 0⟩).stage_name) ∧
      (∀ k1 k2, k1 ≤ k2 →
        Stage.cumulativeCount results k2 ≤ Stage.cumulativeCount results k1) :=
  stage_progression_characterization ⟨[⟨"signup", 1⟩, ⟨"activation", 35/100⟩], []⟩
    [none] (fun _ _ => 1/2) (by simp)

/-! ## State-transition lifecycle (`src/datagen/core/state_transition_utils.py`)

`_simulate_entity_transitions` records the initial state, then loops up
to `max_transitions` times: stop at a terminal state, at a non-positive
base or effective transition probability, past the timeframe end, on an
empty or zero-mass next-state distribution; otherwise sample the waiting
time and next state and emit a transition.  Each `break`/loop-exit site
is labelled with a `StopReason`.  Times are rationals measured in days;
`rngExp mean k` is the `k`-th `rng.exponential(mean)` draw and
`rngChoice k dist` the `k`-th `rng.choice` over the normalized
distribution. -/

namespace StateSim

/-- `states[name]`: `terminal`, `transition_prob_per_period` and
`next_states` with their dict-get defaults. -/
structure StateCfg where
  terminal : Bool
  transition_prob_per_period : ℚ
  next_states : List (String × ℚ)
deriving DecidableEq

/-- `states.get(current_state, {})`. -/
def stateCfgOf (states : List (String × StateCfg)) (name : String) : StateCfg :=
  ((states.find? (fun p => p.1 == name)).map Prod.snd).getD ⟨false, 0, []⟩

/-- `vintage_behavior` (only its churn-multiplier curve is read). -/
structure VintageBehavior where
  churn_multiplier_curve : Option (List ℚ)
deriving DecidableEq

/-- Python `int(q)`: truncation toward zero. -/
def pyTrunc (q : ℚ) : ℤ := if 0 ≤ q then ⌊q⌋ else -⌊-q⌋

/-- Python list indexing with negative-index wrapping. -/
def pyIndex (l : List ℚ) (i : ℤ) : Except String ℚ :=
  if 0 ≤ i then
    if i.toNat < l.length then .ok (l.getD i.toNat 0)
    else .error "IndexError: list index out of range"
  else
    if 0 ≤ (l.length : ℤ) + i then .ok (l.getD ((l.length : ℤ) + i).toNat 0)
    else .error "IndexError: list index out of range"

/-- The vintage multiplier of the current iteration
(`curve[int(age_periods)]` when before the curve end, else `curve[-1]`;
1 when no curve is configured). -/
def vintageMultiplier (vb : Option VintageBehavior) (period_days : ℚ)
    (current_time start_time : ℚ) : Except String ℚ :=
  match vb with
  | some v =>
    match v.churn_multiplier_curve with
    | some curve =>
      let age_days : ℤ := ⌊current_time - start_time⌋
      let entity_age_periods := (age_days : ℚ) / period_days
      let period_idx := pyTrunc entity_age_periods
      if period_idx < (curve.length : ℤ) then pyIndex curve period_idx
      else pyIndex curve (-1)
    | none => pure 1
  | none => pure 1

/-- Why the per-entity simulation loop stopped; one constructor per
`break`/loop-exit site of the Python loop. -/
inductive StopReason where
  | maxTransitions
  | terminal
  | zeroBaseProb
  | zeroEffectiveProb
  | timeframeEnd
  | noNextStates
  | zeroTotalProb
deriving DecidableEq

/-- One emitted transition event. -/
structure TransitionRec where
  transition_time : ℚ
  from_state : Option String
  to_state : String
  transition_index : ℕ
deriving DecidableEq

/-- The fixed data of one entity's simulation. -/
structure SimCtx where
  states : List (String × StateCfg)
  period_days : ℚ
  segment : Option String
  segment_variation : List (String × ℚ)
  vintage_behavior : Option VintageBehavior
  end_time : Option ℚ

/-- The segment multiplier application:
`effective_prob * segment_variation[segment]["churn_multiplier"]` when
the entity has a truthy segment found in `segment_variation`. -/
def segAdjustedProb (ctx : SimCtx) (base : ℚ) : ℚ :=
  match ctx.segment with
  | some s =>
    if s ≠ "" then
      match ctx.segment_variation.find? (fun p => p.1 == s) with
      | some p => base * p.2
      | none => base
    else base
  | none => base

/-- The vintage multiplier application (only when a curve is
configured). -/
def vintageAdjusted (ctx : SimCtx) (p vmult : ℚ) : ℚ :=
  match ctx.vintage_behavior with
  | some v =>
    match v.churn_multiplier_curve with
    | some _ => p * vmult
    | none => p
  | none => p

/-- `next_time > end_time` when a timeframe end is configured. -/
def pastTimeframe (end_time : Option ℚ) (next_time : ℚ) : Bool :=
  match end_time with
  | some et => decide (et < next_time)
  | none => false

/-- The `while transition_index < max_transitions` loop; `fuel` is
`max_transitions - transition_index`, `k` the rng draw counter. -/
def simLoop (ctx : SimCtx) (rngExp : ℚ → ℕ → ℚ)
    (rngChoice : ℕ → List (String × ℚ) → String) (start_time : ℚ) :
    ℕ → ℕ → String → ℚ → ℕ → List TransitionRec →
    Except String (List TransitionRec × StopReason)
  | 0, _, _, _, _, acc => .ok (acc, .maxTransitions)
  | fuel + 1, k, current_state, current_time, tidx, acc =>
    let cfg := stateCfgOf ctx.states current_state
    if cfg.terminal then .ok (acc, .terminal)
    else if cfg.transition_prob_per_period ≤ 0 then .ok (acc, .zeroBaseProb)
    else
      (vintageMultiplier ctx.vintage_behavior ctx.period_days current_time start_time).bind
      fun vmult =>
        let effective_prob :=
          min 1 (vintageAdjusted ctx (segAdjustedProb ctx cfg.transition_prob_per_period) vmult)
        if 0 < effective_prob then
          let mean_time := ctx.period_days / effective_prob
          let time_until := rngExp mean_time k
          let next_time := current_time + time_until
          if pastTimeframe ctx.end_time next_time then
            .ok (acc, .timeframeEnd)
          else
            if cfg.next_states.isEmpty then .ok (acc, .noNextStates)
            else
              let total := (cfg.next_states.map Prod.snd).sum
              if total ≤ 0 then .ok (acc, .zeroTotalProb)
              else
                let probs := cfg.next_states.map (fun p => (p.1, p.2 / total))
                let next_state := rngChoice (k + 1) probs
                let rec2 : TransitionRec :=
                  { transition_time := next_time, from_state := some current_state,
                    to_state := next_state, transition_index := tidx + 1 }
                simLoop ctx rngExp rngChoice start_time fuel (k + 2) next_state next_time
                  (tidx + 1) (acc ++ [rec2])
        else .ok (acc, .zeroEffectiveProb)

/-- `_simulate_entity_transitions`: record the initial state, then loop. -/
def _simulate_entity_transitions (ctx : SimCtx) (rngExp : ℚ → ℕ → ℚ)
    (rngChoice : ℕ → List (String × ℚ) → String) (start_time : ℚ)
    (initial_state : String) (max_transitions : ℕ) :
    Except String (List TransitionRec × StopReason) :=
  let rec0 : TransitionRec :=
    { transition_time := start_time, from_state := none,
      to_state := initial_state, transition_index := 0 }
  simLoop ctx rngExp rngChoice start_time max_transitions 0 initial_state start_time 0 [rec0]

/-- The stopping causes named by the claim: terminal state,
max-transition cap, or timeframe end. -/
def claimStop (reason : StopReason) : Prop :=
  reason = .terminal ∨ reason = .maxTransitions ∨ reason = .timeframeEnd

instance (reason : StopReason) : Decidable (claimStop reason) := by
  unfold claimStop; infer_instance

end StateSim

namespace StateSim

theorem simLoop_sound (ctx : SimCtx) (rngExp : ℚ → ℕ → ℚ)
    (rngChoice : ℕ → List (String × ℚ) → String) (start_time : ℚ) (maxT : ℕ) :
    ∀ (fuel k : ℕ) (cur : String) (ct : ℚ) (tidx : ℕ) (acc recs : List TransitionRec)
      (reason : StopReason),
      simLoop ctx rngExp rngChoice start_time fuel k cur ct tidx acc = .ok (recs, reason) →
      fuel + tidx = maxT →
      (∀ r ∈ acc, ∀ s, r.from_state = some s → (stateCfgOf ctx.states s).terminal = false) →
      (∃ last, acc.getLast? = some last ∧ last.to_state = cur ∧ last.transition_index = tidx) →
      (∀ r ∈ recs, ∀ s, r.from_state = some s → (stateCfgOf ctx.states s).terminal = false) ∧
      (reason = .terminal → ∃ last, recs.getLast? = some last ∧
        (stateCfgOf ctx.states last.to_state).terminal = true) ∧
      (reason = .maxTransitions → ∃ last, recs.getLast? = some last ∧
        last.transition_index = maxT) ∧
      (reason = .timeframeEnd → ctx.end_time ≠ none) := by
  intro fuel
  induction fuel with
  | zero =>
    intro k cur ct tidx acc recs reason h hfuel hacc hlast
    rw [simLoop] at h
    simp only [Except.ok.injEq, Prod.mk.injEq] at h
    obtain ⟨rfl, rfl⟩ := h.symm
    refine ⟨hacc, ?_, ?_, ?_⟩
    · intro hh; cases hh
    · intro _
      obtain ⟨last, h1, -, h3⟩ := hlast
      exact ⟨last, h1, by omega⟩
    · intro hh; cases hh
  | succ fuel ih =>
    intro k cur ct tidx acc recs reason h hfuel hacc hlast
    rw [simLoop] at h
    by_cases hterm : (stateCfgOf ctx.states cur).terminal = true
    · rw [if_pos hterm] at h
      simp only [Except.ok.injEq, Prod.mk.injEq] at h
      obtain ⟨rfl, rfl⟩ := h.symm
      refine ⟨hacc, ?_, ?_, ?_⟩
      · intro _
        obtain ⟨last, h1, h2, -⟩ := hlast
        exact ⟨last, h1, h2 ▸ hterm⟩
      · intro hh; cases hh
      · intro hh; cases hh
    · rw [if_neg hterm] at h
      by_cases hbase : (stateCfgOf ctx.states cur).transition_prob_per_period ≤ 0
      · rw [if_pos hbase] at h
        simp only [Except.ok.injEq, Prod.mk.injEq] at h
        obtain ⟨rfl, rfl⟩ := h.symm
        refine ⟨hacc, ?_, ?_, ?_⟩
        · intro hh; cases hh
        · intro hh; cases hh
        · intro hh; cases hh
      · rw [if_neg hbase] at h
        cases hv : vintageMultiplier ctx.vintage_behavior ctx.period_days ct start_time with
        | error e =>
          rw [hv] at h
          simp only [Except.bind] at h
          cases h
        | ok vmult =>
          rw [hv] at h
          simp only [Except.bind] at h
          by_cases heff : 0 < min 1 (vintageAdjusted ctx
              (segAdjustedProb ctx (stateCfgOf ctx.states cur).transition_prob_per_period) vmult)
          · rw [if_pos heff] at h
            by_cases htf : pastTimeframe ctx.end_time
                (ct + rngExp (ctx.period_days / min 1 (vintageAdjusted ctx
                  (segAdjustedProb ctx (stateCfgOf ctx.states cur).transition_prob_per_period)
                  vmult)) k) = true
            · rw [if_pos htf] at h
              simp only [Except.ok.injEq, Prod.mk.injEq] at h
              obtain ⟨rfl, rfl⟩ := h.symm
              refine ⟨hacc, ?_, ?_, ?_⟩
              · intro hh; cases hh
              · intro hh; cases hh
              · intro _
                cases het : ctx.end_time with
                | none => exact absurd htf (by simp [pastTimeframe, het])
                | some et => simp [het]
            · rw [if_neg htf] at h
              by_cases hempty : (stateCfgOf ctx.states cur).next_states.isEmpty = true
              · rw [if_pos hempty] at h
                simp only [Except.ok.injEq, Prod.mk.injEq] at h
                obtain ⟨rfl, rfl⟩ := h.symm
                refine ⟨hacc, ?_, ?_, ?_⟩
                · intro hh; cases hh
                · intro hh; cases hh
                · intro hh; cases hh
              · rw [if_neg hempty] at h
                by_cases htot : ((stateCfgOf ctx.states cur).next_states.map Prod.snd).sum ≤ 0
                · rw [if_pos htot] at h
                  simp only [Except.ok.injEq, Prod.mk.injEq] at h
                  obtain ⟨rfl, rfl⟩ := h.symm
                  refine ⟨hacc, ?_, ?_, ?_⟩
                  · intro hh; cases hh
                  · intro hh; cases hh
                  · intro hh; cases hh
                · rw [if_neg htot] at h
                  refine ih _ _ _ _ _ _ _ h (by omega) ?_ ?_
                  · intro r hr s hs
                    rcases List.mem_append.mp hr with hr' | hr'
                    · exact hacc r hr' s hs
                    · rw [List.mem_singleton] at hr'
                      subst hr'
                      simp only [Option.some.injEq] at hs
                      subst hs
                      simpa using hterm
                  · exact ⟨_, List.getLast?_concat _, rfl, rfl⟩
          · rw [if_neg heff] at h
            simp only [Except.ok.injEq, Prod.mk.injEq] at h
            obtain ⟨rfl, rfl⟩ := h.symm
            refine ⟨hacc, ?_, ?_, ?_⟩
            · intro hh; cases hh
            · intro hh; cases hh
            · intro hh; cases hh

end StateSim

/-- C6 (amended): in every state-transition simulation trace no emitted
transition has a terminal `from_state` (once an entity enters a terminal
state nothing further is emitted for it), and the stop causes are sound:
at `terminal` the final state's config is terminal, at the max-transition
cap exactly `max_transitions` transitions were emitted, at `timeframeEnd`
a timeframe end was configured.  However the simulation may also stop
because the current state offers no further transitions (non-positive
base or effective probability, an empty next-state distribution, or zero
total next-state mass) — not only at the three causes the claim lists. -/
theorem state_transitions_characterization (ctx : StateSim.SimCtx)
    (rngExp : ℚ → ℕ → ℚ) (rngChoice : ℕ → List (String × ℚ) → String)
    (start_time : ℚ) (initial_state : String) (max_transitions : ℕ)
    (recs : List StateSim.TransitionRec) (reason : StateSim.StopReason)
    (h : StateSim._simulate_entity_transitions ctx rngExp rngChoice start_time
      initial_state max_transitions = .ok (recs, reason)) :
    (∀ r ∈ recs, ∀ s, r.from_state = some s →
      (StateSim.stateCfgOf ctx.states s).terminal = false) ∧
    (reason = .terminal → ∃ last, recs.getLast? = some last ∧
      (StateSim.stateCfgOf ctx.states last.to_state).terminal = true) ∧
    (reason = .maxTransitions → ∃ last, recs.getLast? = some last ∧
      last.transition_index = max_transitions) ∧
    (reason = .timeframeEnd → ctx.end_time ≠ none) := by
  refine StateSim.simLoop_sound ctx rngExp rngChoice start_time max_transitions
    max_transitions 0 initial_state start_time 0 _ recs reason h (by omega) ?_ ?_
  · intro r hr s hs
    rw [List.mem_singleton] at hr
    subst hr
    cases hs
  · exact ⟨_, rfl, rfl, rfl⟩

/-- Witness for C6's amended theorem: an entity whose initial state is
terminal stops immediately with the `terminal` reason. -/
theorem state_transitions_characterization_witness :
    (∀ r ∈ [(⟨0, none, "churned", 0⟩ : StateSim.TransitionRec)], ∀ s,
      r.from_state = some s →
      (StateSim.stateCfgOf [("churned", ⟨true, 0, []⟩)] s).terminal = false) ∧
    (StateSim.StopReason.terminal = .terminal →
      ∃ last, [(⟨0, none, "churned", 0⟩ : StateSim.TransitionRec)].getLast? = some last ∧
        (StateSim.stateCfgOf [("churned", ⟨true, 0, []⟩)] last.to_state).terminal = true) ∧
    (StateSim.StopReason.terminal = .maxTransitions →
      ∃ last, [(⟨0, none, "churned", 0⟩ : StateSim.TransitionRec)].getLast? = some last ∧
        last.transition_index = 5) ∧
    (StateSim.StopReason.terminal = .timeframeEnd →
      (none : Option ℚ) ≠ none) :=
  state_transitions_characterization
    ⟨[("churned", ⟨true, 0, []⟩)], 30, none, [], none, none⟩
    (fun _ _ => 1) (fun _ _ => "churned") 0 "churned" 5
    [⟨0, none, "churned", 0⟩] .terminal
    (by simp +decide [StateSim._simulate_entity_transitions, StateSim.simLoop,
      StateSim.stateCfgOf])

/-- C6 counterexample: an entity in a non-terminal state with zero
transition probability stops immediately — neither at a terminal state,
nor at the max-transition cap, nor at the timeframe end — so the claim's
list of stopping causes is incomplete. -/
theorem state_transitions_stop_beyond_claim :
    StateSim._simulate_entity_transitions
      ⟨[("idle", ⟨false, 0, []⟩)], 30, none, [], none, none⟩
      (fun _ _ => 1) (fun _ _ => "idle") 0 "idle" 5 =
      .ok ([⟨0, none, "idle", 0⟩], .zeroBaseProb) ∧
    ¬ StateSim.claimStop .zeroBaseProb := by
  constructor
  · simp +decide [StateSim._simulate_entity_transitions, StateSim.simLoop,
      StateSim.stateCfgOf]
  · decide

/-! ## Multi-touch attribution (`src/datagen/core/attribution_chain_utils.py`)

Per conversion: touchpoint days-before-conversion via exponential draws
clipped to `[0, time_window_days]` and sorted oldest-first; weights per
the attribution model, with time-decay `2^(-days/halflife)` renormalized.
Reals model numpy floats; draw streams are abstract. -/

namespace Attrib

/-- `calculate_attribution_weights(n_touches, model, days_before,
halflife_days)`.  (The source also computes `max_days` and
`time_to_conversion` in the time-decay branch but never uses them.) -/
noncomputable def calculate_attribution_weights (n_touches : ℕ) (model : String)
    (days_before : List ℝ) (halflife_days : ℝ) : Except String (List ℝ) :=
  if model = "linear" then
    .ok (List.replicate n_touches ((1:ℝ) / n_touches))
  else if model = "first_touch" then
    if n_touches = 0 then .error "IndexError: index 0 is out of bounds"
    else .ok ((List.replicate n_touches (0:ℝ)).set 0 1)
  else if model = "last_touch" then
    if n_touches = 0 then .error "IndexError: index -1 is out of bounds"
    else .ok ((List.replicate n_touches (0:ℝ)).set (n_touches - 1) 1)
  else if model = "time_decay" then
    let weights := days_before.map (fun d => (2:ℝ) ^ (-d / halflife_days))
    .ok (weights.map (fun w => w / weights.sum))
  else .error ("Unknown attribution model: " ++ model)

/-- `np.clip(days, 0, W)` then `np.sort(days)[::-1]` (oldest first). -/
noncomputable def daysBefore (raw : List ℝ) (time_window_days : ℝ) : List ℝ :=
  (raw.map (fun d => min (max d 0) time_window_days)).mergeSort (fun a b => decide (b ≤ a))

/-- `time_decay_halflife_days or time_window_days / 2` (Python `or`, so
both `None` and a zero half-life fall back to half the window). -/
noncomputable def resolveHalflife (hopt : Option ℝ) (time_window_days : ℝ) : ℝ :=
  match hopt with
  | some h => if h = 0 then time_window_days / 2 else h
  | none => time_window_days / 2

/-- One emitted touchpoint record (`touchpoint_id` is assigned during
the global enumeration; `conversionRow` is the conversion's row index,
standing for its `conversion_id`). -/
structure Touchpoint where
  touchpoint_id : ℕ
  conversionRow : ℕ
  channel : String
  timestamp : ℝ
  position : ℕ
  attribution_weight : ℝ

/-- `zip(a, b, c)` with Python's truncation to the shortest input. -/
def zip3 {α β γ : Type} : List α → List β → List γ → List (α × β × γ)
  | a :: as, b :: bs, c :: cs => (a, b, c) :: zip3 as bs cs
  | _, _, _ => []

/-- The per-conversion body of the `for _, conversion in ...` loop:
`n_touches` is this conversion's `rng.integers(min, max+1)` draw,
`expDraws` its exponential draws and `channels` its channel choices
(`touchpoint_id` is filled in by the caller's enumeration, 0 here). -/
noncomputable def chainForConversion (convRow : ℕ) (conversion_time : ℝ)
    (n_touches : ℕ) (expDraws : ℕ → ℝ) (channels : ℕ → String)
    (time_window_days : ℝ) (attribution_model : String) (halflife : ℝ) :
    Except String (List Touchpoint) := do
  let days_before := daysBefore (List.ofFn (fun i : Fin n_touches => expDraws i))
    time_window_days
  let weights ← calculate_attribution_weights n_touches attribution_model days_before halflife
  let touchpoint_times := days_before.map (fun d => conversion_time - d)
  let chs := List.ofFn (fun i : Fin n_touches => channels i)
  pure ((zip3 chs touchpoint_times weights).enum.map (fun p =>
    { touchpoint_id := 0, conversionRow := convRow, channel := p.2.1,
      timestamp := p.2.2.1, position := p.1 + 1, attribution_weight := p.2.2.2 }))

/-- The conversion loop: chains per conversion row, concatenated. -/
noncomputable def chainRows (touchDraw : ℕ → ℕ) (expDraws : ℕ → ℕ → ℝ)
    (channels : ℕ → ℕ → String) (time_window_days : ℝ) (attribution_model : String)
    (halflife : ℝ) : ℕ → List ℝ → Except String (List Touchpoint)
  | _, [] => .ok []
  | i, t :: ts => do
    let chain ← chainForConversion i t (touchDraw i) (expDraws i) (channels i)
      time_window_days attribution_model halflife
    let rest ← chainRows touchDraw expDraws channels time_window_days attribution_model
      halflife (i + 1) ts
    pure (chain ++ rest)

/-- `generate_attribution_chains`: resolve the half-life, build every
conversion's chain, and assign sequential touchpoint ids starting at 1. -/
noncomputable def generate_attribution_chains (conversions : List ℝ)
    (touchDraw : ℕ → ℕ) (expDraws : ℕ → ℕ → ℝ) (channels : ℕ → ℕ → String)
    (time_window_days : ℝ) (attribution_model : String) (hopt : Option ℝ) :
    Except String (List Touchpoint) := do
  let halflife := resolveHalflife hopt time_window_days
  let rows ← chainRows touchDraw expDraws channels time_window_days attribution_model
    halflife 0 conversions
  pure (rows.enum.map (fun p => { p.2 with touchpoint_id := p.1 + 1 }))

end Attrib

namespace Attrib

theorem sum_replicate_zero_set_one (n k : ℕ) (h : k < n) :
    ((List.replicate n (0:ℝ)).set k 1).sum = 1 := by
  induction n generalizing k with
  | zero => omega
  | succ m ih =>
    cases k with
    | zero => simp [List.replicate_succ]
    | succ k' =>
      rw [List.replicate_succ]
      simp only [List.set_cons_succ, List.sum_cons]
      rw [ih k' (by omega)]
      norm_num

theorem list_sum_map_div (l : List ℝ) (S : ℝ) :
    (l.map (fun w => w / S)).sum = l.sum / S := by
  induction l with
  | nil => simp
  | cons a t ih => simp [ih, add_div]

/-- The time-decay weight denominator is positive for a nonempty
days-before list. -/
theorem decay_sum_pos (days : List ℝ) (h : ℝ) (hne : days ≠ []) :
    0 < ((days.map (fun d => (2:ℝ) ^ (-d / h))).sum) := by
  apply List.sum_pos
  · intro x hx
    obtain ⟨d, -, rfl⟩ := List.mem_map.mp hx
    exact Real.rpow_pos_of_pos (by norm_num) _
  · simpa using hne

/-- Every attribution model's weights sum to 1 for n ≥ 1 touchpoints. -/
theorem calculate_attribution_weights_sum (n : ℕ) (model : String) (days : List ℝ)
    (h : ℝ) (hn : 1 ≤ n) (hdays : days.length = n)
    (hmodel : model = "linear" ∨ model = "first_touch" ∨ model = "last_touch" ∨
      model = "time_decay") :
    ∃ ws, calculate_attribution_weights n model days h = .ok ws ∧
      ws.length = n ∧ ws.sum = 1 := by
  have hne : days ≠ [] := List.ne_nil_of_length_pos (by omega)
  rcases hmodel with rfl | rfl | rfl | rfl
  · refine ⟨_, by rw [calculate_attribution_weights, if_pos rfl], by simp, ?_⟩
    rw [List.sum_replicate, nsmul_eq_mul]
    rw [mul_one_div, div_self (by positivity : (n:ℝ) ≠ 0)]
  · refine ⟨_, ?_, by simp, sum_replicate_zero_set_one n 0 (by omega)⟩
    rw [calculate_attribution_weights, if_neg (by decide), if_pos rfl,
      if_neg (by omega)]
  · refine ⟨_, ?_, by simp, sum_replicate_zero_set_one n (n - 1) (by omega)⟩
    rw [calculate_attribution_weights, if_neg (by decide), if_neg (by decide),
      if_pos rfl, if_neg (by omega)]
  · have heq : calculate_attribution_weights n "time_decay" days h =
        .ok ((days.map (fun d => (2:ℝ) ^ (-d / h))).map
          (fun w => w / (days.map (fun d => (2:ℝ) ^ (-d / h))).sum)) := by
      rw [calculate_attribution_weights, if_neg (by decide), if_neg (by decide),
        if_neg (by decide), if_pos rfl]
    refine ⟨_, heq, by simp [hdays], ?_⟩
    rw [list_sum_map_div]
    exact div_self (ne_of_gt (decay_sum_pos days h hne))

end Attrib

namespace Attrib

theorem time_decay_getD (days : List ℝ) (h S : ℝ) (i : ℕ) (hi : i < days.length) :
    ((days.map (fun d => (2:ℝ) ^ (-d / h))).map (fun w => w / S)).getD i 0 =
      ((2:ℝ) ^ (-(days.getD i 0) / h)) / S := by
  rw [List.getD_eq_getElem _ _ (by simpa using hi), List.getD_eq_getElem _ _ hi]
  simp [List.getElem_map]

end Attrib

/-- C8: under the time-decay model a touchpoint with strictly fewer days
before conversion receives strictly greater weight; for a strictly
decreasing (oldest-first) days-before list the returned weights are
strictly increasing from oldest to newest, and they always sum to 1. -/
theorem time_decay_weights_strictly_increasing (days : List ℝ) (h : ℝ)
    (hh : 0 < h) (hne : days ≠ []) :
    ∃ ws, Attrib.calculate_attribution_weights days.length "time_decay" days h = .ok ws ∧
      ws.length = days.length ∧ ws.sum = 1 ∧
      (∀ i j, i < days.length → j < days.length →
        days.getD j 0 < days.getD i 0 → ws.getD i 0 < ws.getD j 0) ∧
      (List.Chain' (fun a b => b < a) days → List.Chain' (· < ·) ws) := by
  have hS : 0 < (days.map (fun d => (2:ℝ) ^ (-d / h))).sum :=
    Attrib.decay_sum_pos days h hne
  have heq : Attrib.calculate_attribution_weights days.length "time_decay" days h =
      .ok ((days.map (fun d => (2:ℝ) ^ (-d / h))).map
        (fun w => w / (days.map (fun d => (2:ℝ) ^ (-d / h))).sum)) := by
    rw [Attrib.calculate_attribution_weights, if_neg (by decide), if_neg (by decide),
      if_neg (by decide), if_pos rfl]
  have hmono : ∀ i j, i < days.length → j < days.length →
      days.getD j 0 < days.getD i 0 →
      ((days.map (fun d => (2:ℝ) ^ (-d / h))).map
        (fun w => w / (days.map (fun d => (2:ℝ) ^ (-d / h))).sum)).getD i 0 <
      ((days.map (fun d => (2:ℝ) ^ (-d / h))).map
        (fun w => w / (days.map (fun d => (2:ℝ) ^ (-d / h))).sum)).getD j 0 := by
    intro i j hi hj hd
    rw [Attrib.time_decay_getD days h _ i hi, Attrib.time_decay_getD days h _ j hj]
    apply div_lt_div_of_pos_right ?_ hS
    apply (Real.rpow_lt_rpow_left_iff (by norm_num : (1:ℝ) < 2)).mpr
    exact div_lt_div_of_pos_right (neg_lt_neg hd) hh
  refine ⟨_, heq, by simp, ?_, hmono, ?_⟩
  · rw [Attrib.list_sum_map_div]
    exact div_self (ne_of_gt hS)
  · intro hdchain
    rw [List.chain'_iff_get] at hdchain ⊢
    intro i hilen
    have hlen : ((days.map (fun d => (2:ℝ) ^ (-d / h))).map
        (fun w => w / (days.map (fun d => (2:ℝ) ^ (-d / h))).sum)).length = days.length := by
      simp
    rw [hlen] at hilen
    have hi : i < days.length := by omega
    have hi1 : i + 1 < days.length := by omega
    have hd := hdchain i (by omega)
    have := hmono i (i + 1) hi hi1 (by
      rw [List.getD_eq_getElem _ _ hi1, List.getD_eq_getElem _ _ hi]
      exact hd)
    rw [List.getD_eq_getElem _ _ (by simpa using hi),
      List.getD_eq_getElem _ _ (by simpa using hi1)] at this
    exact this

/-- Witness for C8 at the spec's scenario: days_before = [20, 15, 10, 5]
(oldest first), half-life 7. -/
theorem time_decay_weights_strictly_increasing_witness :
    ∃ ws, Attrib.calculate_attribution_weights ([20, 15, 10, 5] : List ℝ).length
        "time_decay" [20, 15, 10, 5] 7 = .ok ws ∧
      ws.length = ([20, 15, 10, 5] : List ℝ).length ∧ ws.sum = 1 ∧
      (∀ i j, i < ([20, 15, 10, 5] : List ℝ).length →
        j < ([20, 15, 10, 5] : List ℝ).length →
        ([20, 15, 10, 5] : List ℝ).getD j 0 < ([20, 15, 10, 5] : List ℝ).getD i 0 →
        ws.getD i 0 < ws.getD j 0) ∧
      (List.Chain' (fun a b => b < a) ([20, 15, 10, 5] : List ℝ) →
        List.Chain' (· < ·) ws) :=
  time_decay_weights_strictly_increasing [20, 15, 10, 5] 7 (by norm_num) (by simp)

namespace Attrib

theorem zip3_mem {α β γ : Type} : ∀ (as : List α) (bs : List β) (cs : List γ),
    ∀ x ∈ zip3 as bs cs, x.1 ∈ as ∧ x.2.1 ∈ bs ∧ x.2.2 ∈ cs := by
  intro as
  induction as with
  | nil => intro bs cs x hx; cases hx
  | cons a as' ih =>
    intro bs cs x hx
    cases bs with
    | nil => cases hx
    | cons b bs' =>
      cases cs with
      | nil => cases hx
      | cons c cs' =>
        rw [zip3] at hx
        rcases List.mem_cons.mp hx with rfl | hx'
        · exact ⟨by simp, by simp, by simp⟩
        · obtain ⟨h1, h2, h3⟩ := ih bs' cs' x hx'
          exact ⟨List.mem_cons_of_mem _ h1, List.mem_cons_of_mem _ h2,
            List.mem_cons_of_mem _ h3⟩

theorem zip3_map_third {α β γ : Type} : ∀ (cs : List γ) (as : List α) (bs : List β),
    cs.length ≤ as.length → cs.length ≤ bs.length →
    (zip3 as bs cs).map (fun x => x.2.2) = cs := by
  intro cs
  induction cs with
  | nil =>
    intro as bs _ _
    cases as with
    | nil => rfl
    | cons a as' => cases bs with
      | nil => rfl
      | cons b bs' => rfl
  | cons c cs' ih =>
    intro as bs h1 h2
    cases as with
    | nil => simp at h1
    | cons a as' =>
      cases bs with
      | nil => simp at h2
      | cons b bs' =>
        rw [zip3, List.map_cons]
        rw [ih as' bs' (by simpa using h1) (by simpa using h2)]

theorem enum_map_proj {α β : Type} (l : List α) (g : α → β) :
    l.enum.map (fun p => g p.2) = l.map g := by
  rw [show (fun p : ℕ × α => g p.2) = g ∘ Prod.snd from rfl, ← List.map_map,
    List.enum_map_snd]

theorem mem_enum_snd {α : Type} (l : List α) (p : ℕ × α) (h : p ∈ l.enum) : p.2 ∈ l := by
  rw [List.mem_enum_iff_get?] at h
  exact List.get?_mem h

theorem daysBefore_mem (raw : List ℝ) (W : ℝ) (hW : 0 ≤ W) :
    ∀ d ∈ daysBefore raw W, 0 ≤ d ∧ d ≤ W := by
  intro d hd
  rw [daysBefore, List.mem_mergeSort] at hd
  obtain ⟨x, -, rfl⟩ := List.mem_map.mp hd
  exact ⟨le_min (le_max_right x 0) hW, min_le_right _ _⟩

theorem daysBefore_length (raw : List ℝ) (W : ℝ) :
    (daysBefore raw W).length = raw.length := by
  rw [daysBefore, List.length_mergeSort]
  simp

end Attrib

namespace Attrib

theorem chainForConversion_props (convRow : ℕ) (tC : ℝ) (n : ℕ) (expD : ℕ → ℝ)
    (ch : ℕ → String) (W : ℝ) (model : String) (hl : ℝ)
    (hn : 1 ≤ n) (hW : 0 ≤ W)
    (hmodel : model = "linear" ∨ model = "first_touch" ∨ model = "last_touch" ∨
      model = "time_decay") :
    ∃ chain, chainForConversion convRow tC n expD ch W model hl = .ok chain ∧
      (∀ tp ∈ chain, tp.conversionRow = convRow ∧ tp.timestamp ≤ tC) ∧
      (chain.map (fun tp => tp.attribution_weight)).sum = 1 := by
  have hdayslen : (daysBefore (List.ofFn fun i : Fin n => expD i) W).length = n := by
    rw [daysBefore_length]
    simp
  obtain ⟨ws, hws, hwslen, hwssum⟩ :=
    calculate_attribution_weights_sum n model
      (daysBefore (List.ofFn fun i : Fin n => expD i) W) hl hn hdayslen hmodel
  have hrw : chainForConversion convRow tC n expD ch W model hl =
      (calculate_attribution_weights n model
          (daysBefore (List.ofFn fun i : Fin n => expD i) W) hl).bind
        (fun weights => pure ((zip3 (List.ofFn fun i : Fin n => ch i)
          ((daysBefore (List.ofFn fun i : Fin n => expD i) W).map (fun d => tC - d))
          weights).enum.map (fun p =>
            { touchpoint_id := 0, conversionRow := convRow, channel := p.2.1,
              timestamp := p.2.2.1, position := p.1 + 1,
              attribution_weight := p.2.2.2 }))) := rfl
  refine ⟨_, by rw [hrw, hws]; rfl, ?_, ?_⟩
  · intro tp htp
    obtain ⟨p, hp, rfl⟩ := List.mem_map.mp htp
    refine ⟨rfl, ?_⟩
    have hz := mem_enum_snd _ _ hp
    obtain ⟨-, hts, -⟩ := zip3_mem _ _ _ _ hz
    obtain ⟨d, hd, heqts⟩ := List.mem_map.mp hts
    obtain ⟨hd0, -⟩ := daysBefore_mem _ W hW d hd
    show p.2.2.1 ≤ tC
    rw [← heqts]
    linarith
  · rw [List.map_map]
    rw [show ((fun tp : Touchpoint => tp.attribution_weight) ∘ (fun p : ℕ × (String × ℝ × ℝ) =>
      ({ touchpoint_id := 0, conversionRow := convRow, channel := p.2.1,
         timestamp := p.2.2.1, position := p.1 + 1,
         attribution_weight := p.2.2.2 } : Touchpoint))) =
      (fun p : ℕ × (String × ℝ × ℝ) => p.2.2.2) from rfl]
    rw [enum_map_proj _ (fun x : String × ℝ × ℝ => x.2.2)]
    rw [zip3_map_third ws _ _ (by simp [hwslen]) (by simp [hwslen, hdayslen])]
    exact hwssum

theorem chainRows_sound (touchDraw : ℕ → ℕ) (expDraws : ℕ → ℕ → ℝ)
    (channels : ℕ → ℕ → String) (W : ℝ) (model : String) (hl : ℝ)
    (hdraw : ∀ i, 1 ≤ touchDraw i) (hW : 0 ≤ W)
    (hmodel : model = "linear" ∨ model = "first_touch" ∨ model = "last_touch" ∨
      model = "time_decay") :
    ∀ (ts : List ℝ) (i0 : ℕ),
      ∃ rows, chainRows touchDraw expDraws channels W model hl i0 ts = .ok rows ∧
        (∀ tp ∈ rows, i0 ≤ tp.conversionRow ∧ tp.conversionRow - i0 < ts.length ∧
          tp.timestamp ≤ ts.getD (tp.conversionRow - i0) 0) ∧
        (∀ k, k < ts.length →
          ((rows.filter (fun tp => tp.conversionRow == i0 + k)).map
            (fun tp => tp.attribution_weight)).sum = 1) := by
  intro ts
  induction ts with
  | nil =>
    intro i0
    exact ⟨[], rfl, by simp, by simp⟩
  | cons t ts' ih =>
    intro i0
    obtain ⟨chain, hchain, hcmem, hcsum⟩ :=
      chainForConversion_props i0 t (touchDraw i0) (expDraws i0) (channels i0) W model hl
        (hdraw i0) hW hmodel
    obtain ⟨rest, hrest, hrmem, hrsum⟩ := ih (i0 + 1)
    refine ⟨chain ++ rest, ?_, ?_, ?_⟩
    · rw [chainRows, hchain]
      simp only [bind, Except.bind, hrest, pure, Except.pure]
    · intro tp htp
      rcases List.mem_append.mp htp with h | h
      · obtain ⟨hrow, hts⟩ := hcmem tp h
        rw [hrow]
        simpa using hts
      · obtain ⟨h1, h2, h3⟩ := hrmem tp h
        refine ⟨by omega, by simp; omega, ?_⟩
        have : tp.conversionRow - i0 = (tp.conversionRow - (i0 + 1)) + 1 := by omega
        rw [this, List.getD_cons_succ]
        exact h3
    · intro k hk
      rw [List.filter_append, List.map_append, List.sum_append]
      cases k with
      | zero =>
        have hchainall : chain.filter (fun tp => tp.conversionRow == i0 + 0) = chain := by
          apply List.filter_eq_self.mpr
          intro tp htp
          rw [(hcmem tp htp).1]
          simp
        have hrestnone : rest.filter (fun tp => tp.conversionRow == i0 + 0) = [] := by
          apply List.filter_eq_nil_iff.mpr
          intro tp htp
          have := (hrmem tp htp).1
          simp only [beq_iff_eq]
          omega
        rw [hchainall, hrestnone, hcsum]
        simp
      | succ k' =>
        have hchainnone : chain.filter (fun tp => tp.conversionRow == i0 + (k' + 1)) = [] := by
          apply List.filter_eq_nil_iff.mpr
          intro tp htp
          rw [(hcmem tp htp).1]
          simp only [beq_iff_eq]
          omega
        have := hrsum k' (by simpa using hk)
        rw [hchainnone]
        simp only [List.map_nil, List.sum_nil, zero_add]
        rw [show i0 + (k' + 1) = (i0 + 1) + k' from by omega]
        exact this

end Attrib

namespace Attrib

theorem idmap_filter_weight : ∀ (rows : List Touchpoint) (n k : ℕ),
    (((List.enumFrom n rows).map (fun p => { p.2 with touchpoint_id := p.1 + 1 })).filter
      (fun tp => tp.conversionRow == k)).map (fun tp => tp.attribution_weight) =
    (rows.filter (fun tp => tp.conversionRow == k)).map (fun tp => tp.attribution_weight) := by
  intro rows
  induction rows with
  | nil => intro n k; rfl
  | cons r rest ih =>
    intro n k
    rw [List.enumFrom_cons]
    simp only [List.map_cons]
    rw [List.filter_cons, List.filter_cons]
    by_cases hk : (r.conversionRow == k) = true
    · rw [if_pos hk, if_pos hk]
      simp only [List.map_cons]
      rw [ih]
    · rw [if_neg hk, if_neg hk]
      exact ih _ _

theorem idmap_mem (rows : List Touchpoint) (tp : Touchpoint)
    (h : tp ∈ rows.enum.map (fun p => { p.2 with touchpoint_id := p.1 + 1 })) :
    ∃ tp' ∈ rows, tp.conversionRow = tp'.conversionRow ∧ tp.timestamp = tp'.timestamp := by
  obtain ⟨p, hp, rfl⟩ := List.mem_map.mp h
  exact ⟨p.2, mem_enum_snd _ _ hp, rfl, rfl⟩

end Attrib

/-- C4: with `min_touches ≥ 1` (so every conversion row draws at least
one touchpoint) and a nonnegative attribution window, chain generation
succeeds under each of the four models, the attribution weights emitted
for each conversion row sum exactly to 1, and every emitted touchpoint
timestamp is at or before its conversion's timestamp. -/
theorem attribution_chains_sound (conversions : List ℝ) (touchDraw : ℕ → ℕ)
    (expDraws : ℕ → ℕ → ℝ) (channels : ℕ → ℕ → String) (W : ℝ) (model : String)
    (hopt : Option ℝ)
    (hdraw : ∀ i, 1 ≤ touchDraw i) (hW : 0 ≤ W)
    (hmodel : model = "linear" ∨ model = "first_touch" ∨ model = "last_touch" ∨
      model = "time_decay") :
    ∃ out, Attrib.generate_attribution_chains conversions touchDraw expDraws channels W
        model hopt = .ok out ∧
      (∀ tp ∈ out, tp.conversionRow < conversions.length ∧
        tp.timestamp ≤ conversions.getD tp.conversionRow 0) ∧
      (∀ k, k < conversions.length →
        ((out.filter (fun tp => tp.conversionRow == k)).map
          (fun tp => tp.attribution_weight)).sum = 1) := by
  obtain ⟨rows, hrows, hmem, hsum⟩ := Attrib.chainRows_sound touchDraw expDraws channels W
    model (Attrib.resolveHalflife hopt W) hdraw hW hmodel conversions 0
  have hrw : Attrib.generate_attribution_chains conversions touchDraw expDraws channels W
      model hopt =
      (Attrib.chainRows touchDraw expDraws channels W model
        (Attrib.resolveHalflife hopt W) 0 conversions).bind
        (fun rows => pure (rows.enum.map (fun p => { p.2 with touchpoint_id := p.1 + 1 }))) :=
    rfl
  refine ⟨_, by rw [hrw, hrows]; rfl, ?_, ?_⟩
  · intro tp htp
    obtain ⟨tp', htp', hcr, hts⟩ := Attrib.idmap_mem rows tp htp
    obtain ⟨-, h2, h3⟩ := hmem tp' htp'
    rw [hcr, hts]
    rw [Nat.sub_zero] at h2 h3
    exact ⟨h2, h3⟩
  · intro k hk
    have := Attrib.idmap_filter_weight rows 0 k
    rw [show rows.enum = List.enumFrom 0 rows from rfl]
    rw [this]
    simpa using hsum k hk

/-- Witness for C4 at a single conversion at time 100, window 30 days,
linear model, two touchpoints. -/
theorem attribution_chains_sound_witness :
    ∃ out, Attrib.generate_attribution_chains [100] (fun _ => 2) (fun _ _ => 3)
        (fun _ _ => "email") 30 "linear" none = .ok out ∧
      (∀ tp ∈ out, tp.conversionRow < ([100] : List ℝ).length ∧
        tp.timestamp ≤ ([100] : List ℝ).getD tp.conversionRow 0) ∧
      (∀ k, k < ([100] : List ℝ).length →
        ((out.filter (fun tp => tp.conversionRow == k)).map
          (fun tp => tp.attribution_weight)).sum = 1) :=
  attribution_chains_sound [100] (fun _ => 2) (fun _ _ => 3) (fun _ _ => "email") 30
    "linear" none (fun _ => by norm_num) (by norm_num) (Or.inl rfl)

/-! ## Modifier pipeline (`src/datagen/core/modifiers.py`)

`apply_modifiers` dispatches each modifier in list order on its
`transform` string, threading the values and the rng through; an unknown
transform is skipped with a warning.  Values are numpy arrays of numeric
or datetime dtype; timestamps carry their pandas calendar components
(`hour`, `dayofweek`, `month`).  Draw consumption is modelled by a
counter offsetting the abstract streams; numeric operations on datetime
arrays raise, modelled as errors. -/

namespace Modif

/-- A pandas timestamp: a point on a linear day axis together with the
calendar components the modifiers read. -/
structure PyTimestamp where
  epochDays : ℝ
  hour : Fin 24
  dow : Fin 7
  month1 : Fin 12

/-- A cell of an effect table. -/
inductive RVal where
  | num (x : ℝ)
  | str (s : String)
  | time (t : PyTimestamp)
  | null

noncomputable instance : DecidableEq RVal := Classical.decEq _

/-- The numpy array flowing through the pipeline. -/
inductive Vals where
  | nums (l : List ℝ)
  | times (l : List PyTimestamp)

/-- An effect table column: name, datetime dtype flag, cells. -/
structure EffFrame where
  cols : List (String × Bool × List RVal)

def EffFrame.col? (f : EffFrame) (name : String) : Option (Bool × List RVal) :=
  (f.cols.find? (fun c => c.1 == name)).map (fun c => c.2)

def EffFrame.hasCol (f : EffFrame) (name : String) : Bool := (f.col? name).isSome

noncomputable def EffFrame.cell (f : EffFrame) (name : String) (i : ℕ) : RVal :=
  ((f.col? name).map (fun c => c.2.getD i .null)).getD .null

def EffFrame.nrows (f : EffFrame) : ℕ :=
  ((f.cols.head?).map (fun c => c.2.2.length)).getD 0

/-- A context DataFrame column: numeric, datetime, or an embedded effect
table (the `_effect_<table>` columns added by the executor). -/
inductive CtxCol where
  | nums (l : List ℝ)
  | times (l : List PyTimestamp)
  | frame (f : EffFrame)

/-- The context DataFrame. -/
structure Ctx where
  cols : List (String × CtxCol)

def Ctx.col? (c : Ctx) (name : String) : Option CtxCol :=
  (c.cols.find? (fun p => p.1 == name)).map (fun p => p.2)

def Ctx.hasCol (c : Ctx) (name : String) : Bool := (c.col? name).isSome

/-- The value of a context column at a row, as an effect-comparable
cell. -/
noncomputable def CtxCol.rvalAt : CtxCol → ℕ → RVal
  | .nums l, i => (l.getD i 0 : ℝ) |> RVal.num
  | .times l, i => match l.get? i with
    | some t => RVal.time t
    | none => RVal.null
  | .frame _, _ => RVal.null

/-- dtype check `pd.api.types.is_datetime64_any_dtype`. -/
def CtxCol.isDatetime : CtxCol → Bool
  | .times _ => true
  | _ => false

/-- First datetime column of the context, in column order, optionally
skipping the `_effect_` columns. -/
def Ctx.firstDatetimeCol (c : Ctx) (skipEffect : Bool) : Option String :=
  (c.cols.find? (fun p =>
    (!skipEffect || !(String.isPrefixOf "_effect_" p.1)) && p.2.isDatetime)).map
    (fun p => p.1)

/-- `pd.to_datetime` of a cell, on the day axis. -/
def rvalTime : RVal → ℝ
  | .time t => t.epochDays
  | .num x => x
  | _ => 0

/-- `float(cell)`. -/
def rvalNum : RVal → ℝ
  | .num x => x
  | .time t => t.epochDays
  | _ => 0

end Modif

namespace Modif

/-- The `window` argument bag of an effect modifier (fields are
mandatory at use: `window["start_col"]`). -/
structure EffectWindowArgs where
  start_col : Option String
  end_col : Option String

/-- The `map` argument bag of an effect modifier (all three fields are
mandatory at use). -/
structure EffectMapArgs where
  field : Option String
  op : Option String
  default : Option ℝ

/-- The `magnitude_dist` bag of an outliers modifier. -/
structure MagnitudeDistArgs where
  dtype : Option String
  params : Option Prim.DistParams
  clamp : Option (ℝ × ℝ)

/-- The `args` dict of a modifier: `none` models a missing key
(`args["k"]` on a missing key raises `KeyError`; `args.get` has a
default). -/
structure ModArgs where
  factor : Option ℝ
  value : Option ℝ
  minVal : Option ℝ
  maxVal : Option ℝ
  std : Option ℝ
  mode : Option String
  mapping : Option (List (ℝ × ℝ))
  dimension : Option String
  weights : Option (List ℝ)
  std_minutes : Option ℝ
  effect_table : Option String
  effectOn : Option (List (String × String))
  effectWindow : Option EffectWindowArgs
  effectMap : Option EffectMapArgs
  rate : Option ℝ
  magnitude_dist : Option MagnitudeDistArgs
  trend_type : Option String
  growth_rate : Option ℝ
  trendA : Option ℝ
  trendB : Option ℝ
  time_reference : Option String

/-- An argument bag with every key absent. -/
def emptyArgs : ModArgs :=
  ⟨none, none, none, none, none, none, none, none, none, none, none,
   none, none, none, none, none, none, none, none, none, none⟩

/-- A modifier spec: transform kind plus argument bag. -/
structure Modifier where
  transform : String
  args : ModArgs

/-- `values * factor` (a numeric op on a datetime array raises). -/
noncomputable def modify_multiply (values : Vals) (factor : ℝ) : Except String Vals :=
  match values with
  | .nums l => .ok (.nums (l.map (fun v => v * factor)))
  | .times _ => .error "TypeError: datetime array does not support multiplication"

/-- `values + value`. -/
noncomputable def modify_add (values : Vals) (value : ℝ) : Except String Vals :=
  match values with
  | .nums l => .ok (.nums (l.map (fun v => v + value)))
  | .times _ => .error "TypeError: datetime array does not support float addition"

/-- `np.clip(values, min_val, max_val)`. -/
noncomputable def modify_clamp (values : Vals) (min_val max_val : ℝ) : Except String Vals :=
  match values with
  | .nums l => .ok (.nums (l.map (fun v => min (max v min_val) max_val)))
  | .times _ => .error "TypeError: datetime array does not support clip"

/-- `modify_jitter`: additive or multiplicative Gaussian noise, drawn at
stream offsets `ctr, ctr+1, …`. -/
noncomputable def modify_jitter (values : Vals) (rng : Prim.Rng) (ctr : ℕ)
    (std : ℝ) (mode : String) : Except String Vals :=
  match values with
  | .nums l =>
    let noise := (List.range l.length).map (fun i => rng.normal 0 std (ctr + i))
    if mode = "add" then .ok (.nums (l.zipWith (· + ·) noise))
    else if mode = "mul" then .ok (.nums (l.zipWith (fun v e => v * (1 + e)) noise))
    else .error ("Unknown jitter mode: " ++ mode)
  | .times _ => .error "TypeError: datetime array does not support jitter"

/-- `modify_map_values`: each `(old, new)` mapping entry rewrites every
matching value, entries applied in order; on a datetime array the
numeric comparisons match nothing and the values pass through. -/
noncomputable def modify_map_values (values : Vals) (mapping : List (ℝ × ℝ)) :
    Except String Vals :=
  match values with
  | .nums l =>
    .ok (.nums (mapping.foldl (fun acc p =>
      acc.map (fun v => if v = p.1 then p.2 else v)) l))
  | .times l => .ok (.times l)

/-- `get_seasonality_multiplier` from `generators/temporal.py`: the
per-timestamp weight indexed by the chosen calendar component. -/
noncomputable def get_seasonality_multiplier (timestamps : List PyTimestamp)
    (dimension : String) (weights : List ℝ) : Except String (List ℝ) :=
  if dimension = "hour" then
    if weights.length = 24 then .ok (timestamps.map (fun t => weights.getD t.hour 0))
    else .error "Seasonality dimension hour requires 24 weights"
  else if dimension = "dow" then
    if weights.length = 7 then .ok (timestamps.map (fun t => weights.getD t.dow 0))
    else .error "Seasonality dimension dow requires 7 weights"
  else if dimension = "month" then
    if weights.length = 12 then .ok (timestamps.map (fun t => weights.getD t.month1 0))
    else .error "Seasonality dimension month requires 12 weights"
  else .error ("Unknown seasonality dimension: " ++ dimension)

/-- `modify_seasonality`: scale the numeric values by the per-timestamp
multipliers. -/
noncomputable def modify_seasonality (values : List ℝ) (timestamps : List PyTimestamp)
    (dimension : String) (weights : List ℝ) : Except String (List ℝ) :=
  (get_seasonality_multiplier timestamps dimension weights).map
    (fun mult => values.zipWith (· * ·) mult)

/-- `modify_time_jitter`: Gaussian jitter in minutes added to the
timestamps (the calendar components of a shifted timestamp are not
re-derived by the pipeline, so they are carried over). -/
noncomputable def modify_time_jitter (values : Vals) (rng : Prim.Rng) (ctr : ℕ)
    (std_minutes : ℝ) : Except String Vals :=
  match values with
  | .times l =>
    .ok (.times (l.zipWith (fun t e => { t with epochDays := t.epochDays + e / (24 * 60) })
      ((List.range l.length).map (fun i => rng.normal 0 std_minutes (ctr + i)))))
  | .nums _ => .error "TypeError: cannot jitter a numeric array as datetimes"

/-- `timestamps.min()` on the day axis. -/
noncomputable def tsListMin (l : List PyTimestamp) : ℝ :=
  (l.map (fun t => t.epochDays)).foldl min ((l.head?.map (fun t => t.epochDays)).getD 0)

/-- `modify_trend`: exponential / linear / logarithmic multiplier of the
elapsed years from the context's minimum timestamp. -/
noncomputable def modify_trend (values : List ℝ) (timestamps : List PyTimestamp)
    (trend_type : String) (growth_rate : Option ℝ) (a b : ℝ) :
    Except String (List ℝ) :=
  let years := timestamps.map (fun t => (t.epochDays - tsListMin timestamps) / 365.25)
  if trend_type = "exponential" then
    match growth_rate with
    | none => .error "exponential trend requires growth_rate"
    | some g => .ok (values.zipWith (· * ·) (years.map (fun t => (1 + g) ^ t)))
  else if trend_type = "linear" then
    match growth_rate with
    | none => .error "linear trend requires growth_rate"
    | some g => .ok (values.zipWith (· * ·) (years.map (fun t => 1 + g * t)))
  else if trend_type = "logarithmic" then
    .ok (values.zipWith (· * ·) (years.map (fun t => 1 + a * Real.log (1 + b * t))))
  else .error ("Unknown trend type: " ++ trend_type)

/-- `modify_effect`: per row, the first effect-table row matching the
join keys and the start/end window around the row's timestamp supplies
the field value, else the declared default; then multiply or add. -/
noncomputable def modify_effect (values : List ℝ) (ctx : Ctx) (effect_table_name : String)
    (onKeys : List (String × String)) (window : EffectWindowArgs)
    (mapSpec : EffectMapArgs) : Except String (List ℝ) := do
  let effCol := "_effect_" ++ effect_table_name
  match ctx.col? effCol with
  | some (.frame effect_df) =>
    let start_col ← match window.start_col with
      | some s => pure s
      | none => Except.error "KeyError: start_col"
    let end_col ← match window.end_col with
      | some s => pure s
      | none => Except.error "KeyError: end_col"
    let field ← match mapSpec.field with
      | some s => pure s
      | none => Except.error "KeyError: field"
    let op ← match mapSpec.op with
      | some s => pure s
      | none => Except.error "KeyError: op"
    let dflt ← match mapSpec.default with
      | some d => pure d
      | none => Except.error "KeyError: default"
    match ctx.firstDatetimeCol true with
    | none => pure values
    | some tsColName =>
      let rowTime : ℕ → ℝ := fun idx =>
        match ctx.col? tsColName with
        | some (.times l) => ((l.get? idx).map (fun t => t.epochDays)).getD 0
        | _ => 0
      let result := (List.range values.length).map (fun idx =>
        let allIdx := List.range effect_df.nrows
        let byKeys := onKeys.foldl (fun acc lkek =>
          if ctx.hasCol lkek.1 then
            acc.filter (fun j => decide (effect_df.cell lkek.2 j =
              ((ctx.col? lkek.1).map (fun c => c.rvalAt idx)).getD .null))
          else acc) allIdx
        let byWindow :=
          if effect_df.hasCol start_col && effect_df.hasCol end_col then
            byKeys.filter (fun j =>
              decide (rvalTime (effect_df.cell start_col j) ≤ rowTime idx) &&
              decide (rowTime idx ≤ rvalTime (effect_df.cell end_col j)))
          else byKeys
        match byWindow with
        | [] => dflt
        | j :: _ =>
          if effect_df.hasCol field then rvalNum (effect_df.cell field j) else dflt)
      if op = "mul" then pure (values.zipWith (· * ·) result)
      else if op = "add" then pure (values.zipWith (· + ·) result)
      else pure values
  | _ => pure values

/-- Python `int(x)` for the outlier count. -/
noncomputable def pyTruncR (x : ℝ) : ℤ := if 0 ≤ x then ⌊x⌋ else -⌊-x⌋

/-- `modify_outliers`: spike or drop a without-replacement subset by a
sampled magnitude.  `cnr ctr n k` is the `rng.choice(n, size=k,
replace=False)` draw at counter `ctr`. -/
noncomputable def modify_outliers (values : Vals) (rng : Prim.Rng)
    (cnr : ℕ → ℕ → ℕ → List ℕ) (ctr : ℕ) (rate : ℝ) (mode : String)
    (mag : MagnitudeDistArgs) : Except String Vals := do
  match values with
  | .times _ => Except.error "TypeError: datetime array does not support outliers"
  | .nums l =>
    let t := pyTruncR ((l.length : ℝ) * rate)
    if t = 0 then pure (.nums l)
    else if t < 0 then Except.error "ValueError: negative dimensions are not allowed"
    else
      let dtype ← match mag.dtype with
        | some s => pure s
        | none => Except.error "KeyError: type"
      let params ← match mag.params with
        | some p => pure p
        | none => Except.error "KeyError: params"
      let indices := cnr ctr l.length t.toNat
      let shifted : Prim.Rng :=
        { normal := fun a b i => rng.normal a b (ctr + 1 + i)
          lognormal := fun a b i => rng.lognormal a b (ctr + 1 + i)
          uniform := fun a b i => rng.uniform a b (ctr + 1 + i)
          poisson := fun a i => rng.poisson a (ctr + 1 + i)
          integers := fun a b i => rng.integers a b (ctr + 1 + i) }
      let magnitudes ← Prim.generate_distribution dtype params t.toNat shifted
        (mag.clamp.getD (0.1, 10))
      if mode = "spike" then
        pure (.nums ((indices.zip magnitudes).foldl
          (fun acc p => acc.set p.1 (acc.getD p.1 0 * (1 + p.2))) l))
      else if mode = "drop" then
        pure (.nums ((indices.zip magnitudes).foldl
          (fun acc p => acc.set p.1 (acc.getD p.1 0 / (1 + p.2))) l))
      else Except.error ("Unknown outlier mode: " ++ mode)

end Modif

namespace Modif

/-- The transform kinds `apply_modifiers` dispatches on. -/
def knownTransforms : List String :=
  ["multiply", "add", "clamp", "jitter", "map_values", "seasonality", "time_jitter",
   "effect", "outliers", "trend"]

/-- One iteration of the `for modifier in modifiers` loop of
`apply_modifiers`: dispatch on the transform string, threading the
values and draw counter; an unknown transform is skipped with a
warning, leaving the state unchanged. -/
noncomputable def applyModifier (rng : Prim.Rng) (cnr : ℕ → ℕ → ℕ → List ℕ)
    (ctx : Option Ctx) (m : Modifier) : Vals × ℕ → Except String (Vals × ℕ) := fun st =>
  if m.transform = "multiply" then
    match m.args.factor with
    | none => .error "KeyError: factor"
    | some f => (modify_multiply st.1 f).map (fun v => (v, st.2))
  else if m.transform = "add" then
    match m.args.value with
    | none => .error "KeyError: value"
    | some a => (modify_add st.1 a).map (fun v => (v, st.2))
  else if m.transform = "clamp" then
    match m.args.minVal, m.args.maxVal with
    | some lo, some hi => (modify_clamp st.1 lo hi).map (fun v => (v, st.2))
    | _, _ => .error "KeyError: min/max"
  else if m.transform = "jitter" then
    match m.args.std with
    | none => .error "KeyError: std"
    | some std =>
      let n := match st.1 with | .nums l => l.length | .times l => l.length
      (modify_jitter st.1 rng st.2 std (m.args.mode.getD "add")).map (fun v => (v, st.2 + n))
  else if m.transform = "map_values" then
    match m.args.mapping with
    | none => .error "KeyError: mapping"
    | some mp => (modify_map_values st.1 mp).map (fun v => (v, st.2))
  else if m.transform = "seasonality" then
    match st.1 with
    | .times l => .ok (.times l, st.2)
    | .nums l =>
      match ctx with
      | none => .ok (.nums l, st.2)
      | some c =>
        match c.firstDatetimeCol false with
        | none => .ok (.nums l, st.2)
        | some tsName =>
          match c.col? tsName with
          | some (.times ts) =>
            match m.args.dimension, m.args.weights with
            | some dim, some w =>
              (modify_seasonality l ts dim w).map (fun v => (Vals.nums v, st.2))
            | _, _ => .error "KeyError: dimension/weights"
          | _ => .ok (.nums l, st.2)
  else if m.transform = "time_jitter" then
    match m.args.std_minutes with
    | none => .error "KeyError: std_minutes"
    | some sm =>
      let n := match st.1 with | .nums l => l.length | .times l => l.length
      (modify_time_jitter st.1 rng st.2 sm).map (fun v => (v, st.2 + n))
  else if m.transform = "effect" then
    match ctx with
    | none => .ok st
    | some c =>
      match m.args.effect_table with
      | none => .ok st
      | some name =>
        if c.hasCol ("_effect_" ++ name) then
          match m.args.effectOn, m.args.effectWindow, m.args.effectMap with
          | some onKeys, some w, some ms =>
            match st.1 with
            | .nums l => (modify_effect l c name onKeys w ms).map
                (fun v => (Vals.nums v, st.2))
            | .times _ => .error "TypeError: datetime array does not support effects"
          | _, _, _ => .error "KeyError: on/window/map"
        else .ok st
  else if m.transform = "outliers" then
    match m.args.rate, m.args.mode with
    | some rate, some mode =>
      let mag := m.args.magnitude_dist.getD
        ⟨some "lognormal", some ⟨some 0, none, some 0.5, none, none, none⟩, none⟩
      let consumed := (pyTruncR ((match st.1 with
        | .nums l => (l.length : ℝ) | .times l => (l.length : ℝ)) * rate)).toNat
      (modify_outliers st.1 rng cnr st.2 rate mode mag).map
        (fun v => (v, st.2 + 1 + consumed))
    | _, _ => .error "KeyError: rate/mode"
  else if m.transform = "trend" then
    match ctx with
    | none => .ok st
    | some c =>
      match m.args.time_reference with
      | none => .ok st
      | some tref =>
        match c.col? tref with
        | none => .ok st
        | some (.times ts) =>
          match m.args.trend_type with
          | none => .error "KeyError: type"
          | some tt =>
            match st.1 with
            | .nums l =>
              (modify_trend l ts tt m.args.growth_rate (m.args.trendA.getD 0.1)
                (m.args.trendB.getD 1)).map (fun v => (Vals.nums v, st.2))
            | .times _ => .error "TypeError: datetime array does not support trend"
        | some _ => .error "TypeError: trend time_reference must be a datetime column"
  else .ok st

/-- `apply_modifiers`: thread the state through the modifiers in list
order. -/
noncomputable def apply_modifiers (rng : Prim.Rng) (cnr : ℕ → ℕ → ℕ → List ℕ)
    (ctx : Option Ctx) : List Modifier → Vals × ℕ → Except String (Vals × ℕ)
  | [], st => .ok st
  | m :: ms, st => (applyModifier rng cnr ctx m st).bind (apply_modifiers rng cnr ctx ms)

end Modif

namespace Modif

theorem applyModifier_unknown (rng : Prim.Rng) (cnr : ℕ → ℕ → ℕ → List ℕ)
    (ctx : Option Ctx) (m : Modifier) (st : Vals × ℕ)
    (h : m.transform ∉ knownTransforms) :
    applyModifier rng cnr ctx m st = .ok st := by
  have hne : ∀ s ∈ knownTransforms, m.transform ≠ s := fun s hs hc => h (hc ▸ hs)
  rw [applyModifier.eq_def]
  rw [if_neg (hne "multiply" (by simp [knownTransforms])),
    if_neg (hne "add" (by simp [knownTransforms])),
    if_neg (hne "clamp" (by simp [knownTransforms])),
    if_neg (hne "jitter" (by simp [knownTransforms])),
    if_neg (hne "map_values" (by simp [knownTransforms])),
    if_neg (hne "seasonality" (by simp [knownTransforms])),
    if_neg (hne "time_jitter" (by simp [knownTransforms])),
    if_neg (hne "effect" (by simp [knownTransforms])),
    if_neg (hne "outliers" (by simp [knownTransforms])),
    if_neg (hne "trend" (by simp [knownTransforms]))]

end Modif

/-- C9: the modifier pipeline applies transforms strictly left-to-right
(running the concatenation of two modifier lists equals running the
first, then running the second on its result, with the rng state
threaded through), and a modifier with an unknown transform kind does
not fail the run and leaves the values and rng state unchanged. -/
theorem modifiers_compose_and_unknown_skipped :
    (∀ (rng : Prim.Rng) (cnr : ℕ → ℕ → ℕ → List ℕ) (ctx : Option Modif.Ctx)
       (l1 l2 : List Modif.Modifier) (st : Modif.Vals × ℕ),
      Modif.apply_modifiers rng cnr ctx (l1 ++ l2) st =
        (Modif.apply_modifiers rng cnr ctx l1 st).bind
          (Modif.apply_modifiers rng cnr ctx l2)) ∧
    (∀ (rng : Prim.Rng) (cnr : ℕ → ℕ → ℕ → List ℕ) (ctx : Option Modif.Ctx)
       (m : Modif.Modifier) (st : Modif.Vals × ℕ),
      m.transform ∉ Modif.knownTransforms →
      Modif.applyModifier rng cnr ctx m st = .ok st ∧
      Modif.apply_modifiers rng cnr ctx [m] st = .ok st) := by
  constructor
  · intro rng cnr ctx l1 l2 st
    induction l1 generalizing st with
    | nil => rfl
    | cons m ms ih =>
      show (Modif.applyModifier rng cnr ctx m st).bind _ =
        ((Modif.applyModifier rng cnr ctx m st).bind _).bind _
      cases Modif.applyModifier rng cnr ctx m st with
      | error e => rfl
      | ok st' =>
        show Modif.apply_modifiers rng cnr ctx (ms ++ l2) st' = _
        exact ih st'
  · intro rng cnr ctx m st h
    have h1 := Modif.applyModifier_unknown rng cnr ctx m st h
    exact ⟨h1, by show (Modif.applyModifier rng cnr ctx m st).bind _ = _; rw [h1]; rfl⟩

/-- Concrete draw streams for the C9 witness. -/
noncomputable def modWitnessRng : Prim.Rng :=
  { normal := fun _ _ _ => 0
    lognormal := fun _ _ _ => 0
    uniform := fun _ _ _ => 0
    poisson := fun _ _ => 0
    integers := fun _ _ _ => 0 }

/-- Witness for C9: composition of a concrete two-modifier pipeline, and
the unknown transform "frobnicate" leaving a concrete state unchanged. -/
theorem modifiers_compose_and_unknown_skipped_witness :
    Modif.apply_modifiers modWitnessRng (fun _ _ _ => []) none
        ([⟨"multiply", { Modif.emptyArgs with factor := some 2 }⟩] ++
          [⟨"add", { Modif.emptyArgs with value := some 1 }⟩])
        (Modif.Vals.nums [1, 2], 0) =
      (Modif.apply_modifiers modWitnessRng (fun _ _ _ => []) none
        [⟨"multiply", { Modif.emptyArgs with factor := some 2 }⟩]
        (Modif.Vals.nums [1, 2], 0)).bind
        (Modif.apply_modifiers modWitnessRng (fun _ _ _ => []) none
          [⟨"add", { Modif.emptyArgs with value := some 1 }⟩]) ∧
    ("frobnicate" ∉ Modif.knownTransforms) ∧
    Modif.applyModifier modWitnessRng (fun _ _ _ => []) none
        ⟨"frobnicate", Modif.emptyArgs⟩ (Modif.Vals.nums [1, 2], 0) =
      .ok (Modif.Vals.nums [1, 2], 0) :=
  ⟨modifiers_compose_and_unknown_skipped.1 modWitnessRng (fun _ _ _ => []) none
      [⟨"multiply", { Modif.emptyArgs with factor := some 2 }⟩]
      [⟨"add", { Modif.emptyArgs with value := some 1 }⟩] (Modif.Vals.nums [1, 2], 0),
   by decide,
   (modifiers_compose_and_unknown_skipped.2 modWitnessRng (fun _ _ _ => []) none
      ⟨"frobnicate", Modif.emptyArgs⟩ (Modif.Vals.nums [1, 2], 0) (by decide)).1⟩
